import Mathlib

/-!
Verification of the core of the QuickBooks financial-dashboard repository:
the account-to-category resolver (`fn_map_account_to_category`,
`fn_map_company_accounts`), the monthly aggregation engine
(`fn_generate_monthly_pl`, `fn_generate_monthly_cash_flow`) and the
projection engine (`fn_generate_projection`), all defined in the SQL
migrations under `supabase/migrations/`.  The PL/pgSQL functions are
shallowly embedded as executable Lean functions over list-modelled tables;
`NUMERIC` is modelled by `Rat`, `DATE` by a (year-month, day) pair, and
nullable columns/parameters by `Option`.
-/

set_option allowUnsafeReducibility true
attribute [local semireducible] Rat.add Rat.mul Rat.sub Rat.inv Rat.ofScientific

namespace QB

/-- A calendar date: `ym = year * 12 + (month - 1)` and the day of month.
Ordering is lexicographic, which agrees with calendar order. -/
structure Date where
  ym : Int
  day : Int
deriving DecidableEq, Repr

/-- `a <= b` as SQL date comparison. -/
def Date.ble (a b : Date) : Bool :=
  decide (a.ym < b.ym ∨ (a.ym = b.ym ∧ a.day ≤ b.day))

/-- `a < b` as SQL date comparison. -/
def Date.blt (a b : Date) : Bool :=
  decide (a.ym < b.ym ∨ (a.ym = b.ym ∧ a.day < b.day))

/-- Gregorian leap-year test. -/
def isLeap (y : Int) : Bool :=
  (y % 4 == 0 && y % 100 != 0) || y % 400 == 0

/-- Number of days of the month containing `ym` (0 = January of year 0). -/
def daysInMonth (ym : Int) : Int :=
  if ym.emod 12 == 1 then (if isLeap (ym.fdiv 12) then 29 else 28)
  else if ym.emod 12 == 3 || ym.emod 12 == 5 || ym.emod 12 == 8 || ym.emod 12 == 10 then 30
  else 31

/-- Postgres `date + k * INTERVAL '1 month'`: keep the day of month,
clamped to the length of the target month. -/
def addMonths (d : Date) (k : Int) : Date :=
  ⟨d.ym + k, min d.day (daysInMonth (d.ym + k))⟩

/-- Postgres `DATE_TRUNC('month', d)`: first day of the month of `d`. -/
def dateTruncMonth (d : Date) : Date := ⟨d.ym, 1⟩

/-- Round a rational to an integer, halves away from zero
(Postgres `NUMERIC` rounding). -/
def roundHalfAway (q : Rat) : Int :=
  if 0 ≤ q then ⌊q + 1/2⌋ else -⌊-q + 1/2⌋

/-- Postgres `ROUND(x, 2)`. -/
def round2 (q : Rat) : Rat := (roundHalfAway (q * 100) : Rat) / 100

/-- Postgres `ROUND(x, 4)`. -/
def round4 (q : Rat) : Rat := (roundHalfAway (q * 10000) : Rat) / 10000

/-- SQL `AVG` over a column of nullable numerics: `NULL` entries are
skipped; the result is `NULL` iff no non-`NULL` entry exists. -/
def avgOpt (xs : List (Option Rat)) : Option Rat :=
  let ys := xs.filterMap id
  if ys.isEmpty then none else some (ys.sum / (ys.length : Rat))

/-- Postgres `LOWER`, applied character-wise (the embedding's account
names and examples are ASCII). -/
def lowerStr (s : String) : String := String.mk (s.data.map Char.toLower)

/-! ### SQL `LIKE` pattern matching

`LIKE` patterns: `%` matches any (possibly empty) substring, `_` matches
exactly one character, a backslash escapes the following character; all
other characters match themselves. -/

/-- All suffixes of a character list, longest first. -/
def suffixesOf : List Char → List (List Char)
  | [] => [[]]
  | c :: s => (c :: s) :: suffixesOf s

/-- Matcher for SQL `LIKE`: `likeMatch pat s` decides whether the string
`s` (as a character list) matches the pattern `pat`.  `%` consumes any
prefix (tried via all suffixes of the remaining string), `_` one
character, a backslash escapes the next pattern character (a pattern
ending in a dangling backslash, an error in Postgres, matches nothing —
the patterns built here always end in `%`). -/
def likeMatch : List Char → List Char → Bool
  | [], s => s.isEmpty
  | '%' :: ps, s => (suffixesOf s).any (fun t => likeMatch ps t)
  | '_' :: _, [] => false
  | '_' :: ps, _ :: s' => likeMatch ps s'
  | ['\\'], _ => false
  | '\\' :: _ :: _, [] => false
  | '\\' :: p :: ps, c :: s' => c == p && likeMatch ps s'
  | _ :: _, [] => false
  | p :: ps, c :: s' => c == p && likeMatch ps s'

/-- SQL `s LIKE pat` on strings. -/
def sqlLike (s pat : String) : Bool := likeMatch pat.toList s.toList

/-- Plain (non-`LIKE`) substring test on character lists, used to state
the specification's reading of the fuzzy matcher. -/
def isSubseqAt (n : List Char) : List Char → Bool
  | [] => n.isEmpty
  | c :: h' => n.isPrefixOf (c :: h') || isSubseqAt n h'

/-- `needle` occurs contiguously inside `hay` (case-sensitive). -/
def isSubstrOf (needle hay : String) : Bool := isSubseqAt needle.toList hay.toList

/-! ### Data model

Rows of the tables from `20250101000000_initial_schema.sql` that the
verified functions read or write.  `UUID` columns are modelled by `Nat`
identifiers, `TIMESTAMPTZ` by an abstract `Nat` clock value. -/

/-- A row of `categories`. -/
structure Category where
  id : Nat
  name : String
  canonical_type : String
  source_examples : List String
deriving DecidableEq, Repr

/-- A row of `accounts`. -/
structure Account where
  id : Nat
  company_id : Nat
  name : String
  type : String
  sub_type : Option String
  mapping_category_id : Option Nat
deriving DecidableEq, Repr

/-- A row of `raw_transactions` (the columns the aggregators read). -/
structure RawTransaction where
  id : Nat
  company_id : Nat
  date : Date
  amount : Rat
  account_id : Option Nat
deriving DecidableEq, Repr

/-- The `totals_by_account_type` JSONB of a `monthly_pl` row: keys
`revenue`, `cogs`, `opex`, each possibly absent. -/
structure PLTotals where
  revenue : Option Rat
  cogs : Option Rat
  opex : Option Rat
deriving DecidableEq, Repr

/-- The `totals_by_account_type` JSONB of a `monthly_cash_flow` row. -/
structure CFTotals where
  operating : Rat
  investing : Rat
  financing : Rat
deriving DecidableEq, Repr

/-- A row of `monthly_pl` or `monthly_cash_flow` (identical DDL up to the
totals payload `T`), with `UNIQUE(company_id, period_start)`. -/
structure AggRow (T : Type) where
  id : Nat
  company_id : Nat
  period_start : Date
  period_end : Date
  totals_by_account_type : T
  row_version : Int
  generated_at : Nat
  source_run_id : String
deriving DecidableEq, Repr

/-- The `assumptions` JSONB written by `fn_generate_projection`. -/
structure Assumptions where
  method : String
  growth_rate_monthly : Rat
  growth_rate_annual : Rat
  base_revenue_avg : Rat
  base_costs_avg : Rat
  historical_months_used : Nat
  projection_month_offset : Nat
  generated_at : Nat
deriving DecidableEq, Repr

/-- A row of `projections_12m`, with
`UNIQUE(company_id, snapshot_date, month)`. -/
structure ProjectionRow where
  id : Nat
  company_id : Nat
  snapshot_date : Date
  month : Date
  revenue_projection : Rat
  cost_projection : Rat
  assumptions : Assumptions
deriving DecidableEq, Repr

/-- The database state read and written by the verified functions.
`categories` is the catalog in scan order (the order the PL/pgSQL loops
and `LIMIT 1` lookups traverse it in). -/
structure DB where
  companies : List Nat
  categories : List Category
  accounts : List Account
  raw_transactions : List RawTransaction
  monthly_pl : List (AggRow PLTotals)
  monthly_cash_flow : List (AggRow CFTotals)
  projections_12m : List ProjectionRow
deriving Repr

/-! ### Account category resolver (`20250101000006_account_mapping_function.sql`)

`fn_map_account_to_category` fetches the account, then runs three phases:
an exact-match loop over the catalog, a fuzzy `LIKE`-scoring loop, and a
type-based fallback.  Finally it persists the winner (possibly `NULL`) on
the account.  The loops are transcribed as structural recursions. -/

/-- The exact-match test of one category: some example equals the
lowercased account name. -/
def exactPred (nl : String) (c : Category) : Bool :=
  c.source_examples.any (fun e => nl == lowerStr e)

/-- The exact-match loop: the first category (in catalog order) one of
whose examples equals the lowercased account name wins with score 100. -/
def exactLoop (nl : String) : List Category → Option Nat × Int
  | [] => (none, 0)
  | c :: cs => if exactPred nl c then (some c.id, 100) else exactLoop nl cs

/-- One category's fuzzy score: the inner `FOREACH` loop.  For each
example, `GREATEST` with 80 if the lowercased account name matches
`LIKE '%' || example || '%'`, then `GREATEST` with 70 if the lowercased
example matches `LIKE '%' || name || '%'`. -/
def categoryScore (nl : String) (exs : List String) : Int :=
  exs.foldl
    (fun sc e =>
      let sc := if sqlLike nl ("%" ++ lowerStr e ++ "%") then max sc 80 else sc
      if sqlLike (lowerStr e) ("%" ++ nl ++ "%") then max sc 70 else sc)
    0

/-- The fuzzy loop: fold over the catalog keeping the best score, a later
category replacing the current best only on a strictly larger score. -/
def fuzzyLoop (nl : String) : List Category → Option Nat × Int → Option Nat × Int
  | [], best => best
  | c :: cs, (bid, bsc) =>
      let sc := categoryScore nl c.source_examples
      if sc > bsc then fuzzyLoop nl cs (some c.id, sc)
      else fuzzyLoop nl cs (bid, bsc)

/-- The running maximum of the fuzzy loop. -/
def maxFrom (nl : String) (cs : List Category) (b : Int) : Int :=
  cs.foldl (fun m c => max m (categoryScore nl c.source_examples)) b

/-- The `CASE` over the account's declared type in the fallback branch:
which canonical type the account is classified under. -/
def fallbackCanonicalType (t : String) : String :=
  if t == "Income" || t == "Other Income" then "revenue"
  else if t == "Cost of Goods Sold" then "cogs"
  else if t == "Expense" || t == "Other Expense" then "opex"
  else if t == "Bank" || t == "Other Current Asset" || t == "Fixed Asset"
       || t == "Other Asset" || t == "Accounts Receivable" then "asset"
  else if t == "Accounts Payable" || t == "Credit Card"
       || t == "Other Current Liability" || t == "Long Term Liability" then "liability"
  else if t == "Equity" then "equity"
  else "opex"

/-- `SELECT id FROM categories WHERE canonical_type = ty LIMIT 1`:
the first catalog category of canonical type `ty`, if any. -/
def firstOfType (catalog : List Category) (ty : String) : Option Nat :=
  (catalog.find? (fun c => c.canonical_type == ty)).map (fun c => c.id)

/-- `fn_map_account_to_category`, acting on a fetched account: returns
the resolved category id (`NULL` possible) together with the account as
updated by the final `UPDATE accounts SET mapping_category_id = ...`. -/
def fn_map_account_to_category (catalog : List Category) (acc : Account) :
    Option Nat × Account :=
  let nl := lowerStr acc.name
  let best := exactLoop nl catalog
  let best := if best.2 < 100 then fuzzyLoop nl catalog best else best
  let bId := if best.2 < 50 then firstOfType catalog (fallbackCanonicalType acc.type)
             else best.1
  (bId, { acc with mapping_category_id := bId })

/-- A report row returned by `fn_map_company_accounts`. -/
structure MappingReportRow where
  account_id : Nat
  account_name : String
  category_id : Option Nat
  category_name : String
  mapping_method : String
deriving DecidableEq, Repr

/-- `fn_map_company_accounts`: resolve every account of the company,
emitting for each the `RETURN QUERY SELECT ... FROM categories c WHERE
c.id = v_mapped_category_id` rows (none when the resolved id is `NULL` or
matches no catalog row), and updating every account.  Returns the report
rows and the updated accounts table. -/
def fn_map_company_accounts (catalog : List Category) (accounts : List Account)
    (cid : Nat) : List MappingReportRow × List Account :=
  let rows :=
    (accounts.filter (fun a => a.company_id == cid)).flatMap (fun a =>
      let res := fn_map_account_to_category catalog a
      (catalog.filter (fun c => some c.id == res.1)).map (fun c =>
        { account_id := a.id
          account_name := a.name
          category_id := res.1
          category_name := c.name
          mapping_method :=
            if a.mapping_category_id.isSome then "already_mapped" else "auto_mapped" }))
  let updated := accounts.map (fun a =>
    if a.company_id == cid then (fn_map_account_to_category catalog a).2 else a)
  (rows, updated)

/-! ### Monthly aggregation (`20250101000004_monthly_aggregation_functions.sql`)

Both functions validate their parameters, compute three relational sums
over `raw_transactions`, and upsert one row keyed by
`(company_id, period_start)`.  `RAISE EXCEPTION` is modelled by
`Except.error` carrying the message, so a failed call leaves every table
untouched.  Fresh `gen_random_uuid()` values and `NOW()` are inputs. -/

/-- The P&L aggregation query for one canonical type: sum of `rt.amount`
over all join results `raw_transactions × accounts × categories` with
`rt.account_id = acc.id`, `acc.mapping_category_id = cat.id`, the company
and period filters, and `cat.canonical_type = ct`. -/
def plCategorySum (db : DB) (cid : Nat) (ps pe : Date) (ct : String) : Rat :=
  (db.raw_transactions.map (fun rt =>
    if rt.company_id == cid && Date.ble ps rt.date && Date.ble rt.date pe then
      ((db.accounts.filter (fun acc => rt.account_id == some acc.id)).map (fun acc =>
        ((db.categories.filter (fun cat =>
            acc.mapping_category_id == some cat.id && cat.canonical_type == ct)).map
          (fun _ => rt.amount)).sum)).sum
    else 0)).sum

/-- The cash-flow aggregation query for one set of account types: sum of
`rt.amount` over the `raw_transactions × accounts` join with the company
and period filters and `acc.type IN types`. -/
def cfTypeSum (db : DB) (cid : Nat) (ps pe : Date) (types : List String) : Rat :=
  (db.raw_transactions.map (fun rt =>
    if rt.company_id == cid && Date.ble ps rt.date && Date.ble rt.date pe then
      ((db.accounts.filter (fun acc =>
          rt.account_id == some acc.id && types.contains acc.type)).map
        (fun _ => rt.amount)).sum
    else 0)).sum

/-- The account-type sets of the three cash-flow buckets. -/
def operatingTypes : List String :=
  ["Income", "Expense", "Other Income", "Other Expense", "Cost of Goods Sold"]

/-- Investing bucket account types. -/
def investingTypes : List String := ["Fixed Asset", "Other Asset"]

/-- Financing bucket account types. -/
def financingTypes : List String := ["Long Term Liability", "Equity"]

/-- The upsert key predicate `UNIQUE(company_id, period_start)`. -/
def aggKey {T : Type} (cid : Nat) (ps : Date) (r : AggRow T) : Bool :=
  r.company_id == cid && r.period_start == ps

/-- The `INSERT ... ON CONFLICT (company_id, period_start) DO UPDATE`:
if a row with the key exists it keeps its `id`, `company_id`,
`period_start` and gets `period_end`, totals, `generated_at`,
`source_run_id` overwritten with `row_version` incremented; otherwise a
fresh row with `row_version = 1` is appended.  Returns the new table and
the `RETURNING id` value. -/
def upsertAgg {T : Type} (rows : List (AggRow T)) (cid : Nat) (ps pe : Date)
    (totals : T) (now : Nat) (rid : String) (newId : Nat) :
    List (AggRow T) × Nat :=
  match rows.find? (aggKey cid ps) with
  | some r0 =>
      (rows.map (fun r =>
        if aggKey cid ps r then
          { r with period_end := pe, totals_by_account_type := totals,
                   row_version := r.row_version + 1, generated_at := now,
                   source_run_id := rid }
        else r),
       r0.id)
  | none =>
      (rows ++ [{ id := newId, company_id := cid, period_start := ps,
                  period_end := pe, totals_by_account_type := totals,
                  row_version := 1, generated_at := now, source_run_id := rid }],
       newId)

/-- Shared parameter validation of the two aggregation functions; returns
the error message of the first failing check, if any. -/
def aggValidate (p_company_id : Option Nat) (p_period_start p_period_end : Option Date)
    (p_source_run_id : Option String) : Option String :=
  match p_company_id with
  | none => some "company_id cannot be NULL"
  | some _ =>
    match p_period_start, p_period_end with
    | none, _ => some "period_start and period_end cannot be NULL"
    | _, none => some "period_start and period_end cannot be NULL"
    | some ps, some pe =>
      if Date.blt pe ps then some "period_start must be before or equal to period_end"
      else
        match p_source_run_id with
        | none => some "source_run_id cannot be NULL or empty"
        | some rid =>
          if rid == "" then some "source_run_id cannot be NULL or empty" else none

/-- `fn_generate_monthly_pl`. -/
def fn_generate_monthly_pl (db : DB) (now : Nat) (newId : Nat)
    (p_company_id : Option Nat) (p_period_start p_period_end : Option Date)
    (p_source_run_id : Option String) : Except String (DB × Nat) :=
  match aggValidate p_company_id p_period_start p_period_end p_source_run_id with
  | some msg => .error msg
  | none =>
    match p_company_id, p_period_start, p_period_end, p_source_run_id with
    | some cid, some ps, some pe, some rid =>
      let v_revenue := plCategorySum db cid ps pe "revenue"
      let v_cogs := plCategorySum db cid ps pe "cogs"
      let v_opex := plCategorySum db cid ps pe "opex"
      let v_totals : PLTotals := ⟨some v_revenue, some v_cogs, some v_opex⟩
      let res := upsertAgg db.monthly_pl cid ps pe v_totals now rid newId
      .ok ({ db with monthly_pl := res.1 }, res.2)
    | _, _, _, _ => .error "unreachable"

/-- `fn_generate_monthly_cash_flow`. -/
def fn_generate_monthly_cash_flow (db : DB) (now : Nat) (newId : Nat)
    (p_company_id : Option Nat) (p_period_start p_period_end : Option Date)
    (p_source_run_id : Option String) : Except String (DB × Nat) :=
  match aggValidate p_company_id p_period_start p_period_end p_source_run_id with
  | some msg => .error msg
  | none =>
    match p_company_id, p_period_start, p_period_end, p_source_run_id with
    | some cid, some ps, some pe, some rid =>
      let v_operating := cfTypeSum db cid ps pe operatingTypes
      let v_investing := cfTypeSum db cid ps pe investingTypes
      let v_financing := cfTypeSum db cid ps pe financingTypes
      let v_totals : CFTotals := ⟨v_operating, v_investing, v_financing⟩
      let res := upsertAgg db.monthly_cash_flow cid ps pe v_totals now rid newId
      .ok ({ db with monthly_cash_flow := res.1 }, res.2)
    | _, _, _, _ => .error "unreachable"

/-! ### Projection engine (`20250101000005_projection_function.sql`) -/

/-- The rows of `monthly_pl` matched by the `WHERE` clause of the
base-average query of `fn_generate_projection`: company match and
`period_start >= CURRENT_DATE - INTERVAL '6 months'` and
`period_start < CURRENT_DATE`. -/
def projBaseRows (rows : List (AggRow PLTotals)) (cid : Nat) (today : Date) :
    List (AggRow PLTotals) :=
  rows.filter (fun r =>
    r.company_id == cid && Date.ble (addMonths today (-6)) r.period_start
      && Date.blt r.period_start today)

/-- The aggregates the base-average `SELECT` list names — `AVG` of the
`revenue` field (`NULL`s skipped), `AVG` of
`COALESCE(cogs, 0) + COALESCE(opex, 0)`, `COUNT(*)` — over the
`WHERE`-matched rows.  The statement never computes them: see
`projBaseQuery`. -/
def projBaseAgg (rows : List (AggRow PLTotals)) (cid : Nat) (today : Date) :
    Option Rat × Option Rat × Nat :=
  let sel := projBaseRows rows cid today
  (avgOpt (sel.map (fun r => r.totals_by_account_type.revenue)),
   if sel.isEmpty then none
   else some ((sel.map (fun r =>
       r.totals_by_account_type.cogs.getD 0 + r.totals_by_account_type.opex.getD 0)).sum
     / (sel.length : Rat)),
   sel.length)

/-- The error PostgreSQL raises for the base-average statement: its
`SELECT` list holds aggregate functions with no `GROUP BY`, so the query
is implicitly grouped, and its `ORDER BY` names the ungrouped column
`period_start` (SQLSTATE 42803). -/
def groupBy42803 : String :=
  "42803: column monthly_pl.period_start must appear in the GROUP BY clause or be used in an aggregate function"

/-- The base-average statement of `fn_generate_projection`
(`SELECT AVG(...), AVG(...), COUNT(*) INTO ... FROM monthly_pl WHERE ...
ORDER BY period_start DESC LIMIT 6`).  `ORDER BY` expressions of an
implicitly grouped query are checked like `SELECT`-list entries, so the
plain reference to `period_start` is rejected and the statement raises
SQLSTATE 42803 whenever it executes; the aggregates (`projBaseAgg`) are
never computed.  PL/pgSQL only syntax-checks embedded SQL at
`CREATE FUNCTION`, so the migration installs the function and the error
surfaces at every call that reaches this statement. -/
def projBaseQuery (rows : List (AggRow PLTotals)) (cid : Nat) (today : Date) :
    Except String (Option Rat × Option Rat × Nat) :=
  .error groupBy42803

/-- The upsert key predicate `UNIQUE(company_id, snapshot_date, month)`. -/
def projKey (cid : Nat) (snap m : Date) (r : ProjectionRow) : Bool :=
  r.company_id == cid && r.snapshot_date == snap && r.month == m

/-- `INSERT ... ON CONFLICT (company_id, snapshot_date, month) DO UPDATE`
for `projections_12m`: overwrite `revenue_projection`, `cost_projection`,
`assumptions` on conflict, else append a fresh row. -/
def upsertProjection (rows : List ProjectionRow) (cid : Nat) (snap m : Date)
    (rev cost : Rat) (assum : Assumptions) (newId : Nat) : List ProjectionRow :=
  if rows.any (projKey cid snap m) then
    rows.map (fun r =>
      if projKey cid snap m r then
        { r with revenue_projection := rev, cost_projection := cost,
                 assumptions := assum }
      else r)
  else
    rows ++ [{ id := newId, company_id := cid, snapshot_date := snap, month := m,
               revenue_projection := rev, cost_projection := cost,
               assumptions := assum }]

/-- The `assumptions` record written for offset `mo`. -/
def projAssumptions (avgR avgC : Rat) (hm mo now : Nat) : Assumptions :=
  { method := "moving_average_6m"
    growth_rate_monthly := 1.02
    growth_rate_annual := round4 ((1.02 : Rat) ^ (12 : Nat))
    base_revenue_avg := round2 avgR
    base_costs_avg := round2 avgC
    historical_months_used := hm
    projection_month_offset := mo
    generated_at := now }

/-- The `FOR v_month_offset IN 1..12` loop body iterated over a list of
offsets, threading the `projections_12m` table. -/
def projLoop (cid : Nat) (today : Date) (avgR avgC : Rat) (hm : Nat)
    (now idBase : Nat) : List Nat → List ProjectionRow → List ProjectionRow
  | [], projs => projs
  | m :: ms, projs =>
      let v_projection_month := addMonths (dateTruncMonth today) (m : Int)
      let v_revenue_projection := avgR * (1.02 : Rat) ^ m
      let v_cost_projection := avgC * (1.02 : Rat) ^ m
      projLoop cid today avgR avgC hm now idBase ms
        (upsertProjection projs cid today v_projection_month
          (round2 v_revenue_projection) (round2 v_cost_projection)
          (projAssumptions avgR avgC hm m now) (idBase + m))

/-- The offsets `1..12` of the projection loop. -/
def projOffsets : List Nat := (List.range 12).map (fun i => i + 1)

/-- The target month of offset `mo`: first day of the current month plus
`mo` months. -/
def projMonth (today : Date) (mo : Nat) : Date :=
  addMonths (dateTruncMonth today) (mo : Int)

/-- `fn_generate_projection`.  `today` is `CURRENT_DATE`, `now` the
`NOW()` timestamp, `idBase + m` the fresh id for offset `m`.  Validates
the company, then runs the base-average statement; its unhandled
SQLSTATE 42803 error aborts the function (the code past it — the
`historical_months` check and the 12-offset upsert loop — is embedded
but unreachable). -/
def fn_generate_projection (db : DB) (today : Date) (now idBase : Nat)
    (p_company_id : Option Nat) : Except String (DB × Int) :=
  match p_company_id with
  | none => .error "company_id cannot be NULL"
  | some cid =>
    if !(db.companies.contains cid) then
      .error ("Company with id " ++ toString cid ++ " does not exist")
    else
      match projBaseQuery db.monthly_pl cid today with
      | .error e => .error e
      | .ok q =>
        let v_historical_months := q.2.2
        if v_historical_months = 0 then .ok (db, 0)
        else
          let v_avg_revenue := q.1.getD 0
          let v_avg_costs := q.2.1.getD 0
          let projs := projLoop cid today v_avg_revenue v_avg_costs
            v_historical_months now idBase projOffsets db.projections_12m
          .ok ({ db with projections_12m := projs }, (projOffsets.length : Int))

/-! ### Specification-side definitions

These follow the wording of the specification (not the SQL) and exist to
be compared with the code embeddings above. -/

/-- Insert a `monthly_pl` row into a list sorted by `period_start`
descending. -/
def insertDesc (r : AggRow PLTotals) : List (AggRow PLTotals) → List (AggRow PLTotals)
  | [] => [r]
  | x :: xs =>
      if Date.ble x.period_start r.period_start then r :: x :: xs
      else x :: insertDesc r xs

/-- Sort `monthly_pl` rows by `period_start` descending. -/
def sortDescByPeriodStart : List (AggRow PLTotals) → List (AggRow PLTotals)
  | [] => []
  | r :: rs => insertDesc r (sortDescByPeriodStart rs)

/-- Modelled from the spec: "Selects up to the 6 most recent P&L
aggregates with period_start in the trailing 6-month window strictly
before the current month, ordered by period_start descending, capped at
6 rows.  Computes avg_revenue = mean of their revenue fields; avg_costs =
mean of (cogs + opex), each defaulted to 0 when absent;
historical_months = count used."  The trailing window is the six calendar
months preceding the current month. -/
def specSixMonthBase (rows : List (AggRow PLTotals)) (cid : Nat) (today : Date) :
    Option Rat × Option Rat × Nat :=
  let curMonth := dateTruncMonth today
  let window := rows.filter (fun r =>
    r.company_id == cid && Date.ble (addMonths curMonth (-6)) r.period_start
      && Date.blt r.period_start curMonth)
  let sel := (sortDescByPeriodStart window).take 6
  (avgOpt (sel.map (fun r => r.totals_by_account_type.revenue)),
   if sel.isEmpty then none
   else some ((sel.map (fun r =>
       r.totals_by_account_type.cogs.getD 0 + r.totals_by_account_type.opex.getD 0)).sum
     / (sel.length : Rat)),
   sel.length)

/-- One category's fuzzy score as the specification words it: maximum
over the examples of 80 if the (lowercased) example is a substring of the
account name, 70 if the account name is a substring of the example,
0 otherwise. -/
def categoryScoreSubstr (nl : String) (exs : List String) : Int :=
  exs.foldl
    (fun sc e =>
      let sc := if isSubstrOf (lowerStr e) nl then max sc 80 else sc
      if isSubstrOf nl (lowerStr e) then max sc 70 else sc)
    0

/-- The declarative resolver for accounts with no exact match,
parameterised by the per-category scoring rule: the best-scoring
category wins, ties resolving to the first category in catalog order;
if the best score is below 50 the account is classified by its declared
type through the fallback table, taking the first category of the
selected canonical type. -/
def specFuzzyResolve (score : String → List String → Int)
    (catalog : List Category) (acc : Account) : Option Nat :=
  let nl := lowerStr acc.name
  let best := (catalog.map (fun c => score nl c.source_examples)).foldl max 0
  if best < 50 then firstOfType catalog (fallbackCanonicalType acc.type)
  else (catalog.find? (fun c => score nl c.source_examples == best)).map (fun c => c.id)

/-- Modelled from the spec: claim C2's reading of the fuzzy resolver,
with "substring" taken literally. -/
def specResolveSubstr (catalog : List Category) (acc : Account) : Option Nat :=
  specFuzzyResolve categoryScoreSubstr catalog acc

/-- The resolved canonical type of a transaction: follow
`account_id` to its account and `mapping_category_id` to its category,
if all exist. -/
def txnResolvedType (db : DB) (rt : RawTransaction) : Option String :=
  rt.account_id.bind (fun aid =>
    (db.accounts.find? (fun a => a.id == aid)).bind (fun a =>
      a.mapping_category_id.bind (fun mid =>
        (db.categories.find? (fun c => c.id == mid)).map (fun c => c.canonical_type))))

/-- The declared type of a transaction's account, if the account exists. -/
def txnAccountType (db : DB) (rt : RawTransaction) : Option String :=
  rt.account_id.bind (fun aid =>
    (db.accounts.find? (fun a => a.id == aid)).map (fun a => a.type))

/-- The six canonical types of the category catalog. -/
def canonicalTypes : List String :=
  ["revenue", "cogs", "opex", "asset", "liability", "equity"]

/-! ### Concrete instances used in examples and counterexamples -/

/-- A two-category catalog: a revenue category with example "Sales" and
an opex category with example "Rent". -/
def catalog2 : List Category :=
  [⟨1, "Revenue", "revenue", ["Sales"]⟩, ⟨2, "Operating Expenses", "opex", ["Rent"]⟩]

/-- An expense account whose name "S_les" contains a `LIKE` single-char
wildcard.  It has no exact catalog match and is no substring match either
way, yet `'sales' LIKE '%s_les%'` holds. -/
def acc2 : Account := ⟨10, 1, "S_les", "Expense", none, none⟩

/-- An account whose name equals (case-insensitively) the example
"Sales" of the revenue category of `catalog2`. -/
def acc3 : Account := ⟨11, 1, "SALES", "Expense", none, none⟩

/-- A catalog with one category of every canonical type. -/
def catalog6 : List Category :=
  [⟨1, "Revenue", "revenue", []⟩, ⟨2, "Cost of Goods Sold", "cogs", []⟩,
   ⟨3, "Operating Expenses", "opex", []⟩, ⟨4, "Assets", "asset", []⟩,
   ⟨5, "Liabilities", "liability", []⟩, ⟨6, "Equity", "equity", []⟩]

/-- An account used to witness resolver totality. -/
def acc6 : Account := ⟨12, 1, "Weird Account", "Mystery Type", none, none⟩

/-- An account used to show batch-report omission on an empty catalog. -/
def acc10 : Account := ⟨7, 1, "X", "Bank", none, none⟩

/-- Database of the sign-fidelity example: one revenue, one cogs and one
opex transaction with amounts 100, -30 and -20. -/
def db5 : DB :=
  { companies := [1]
    categories := [⟨1, "Revenue", "revenue", []⟩, ⟨2, "Cost of Goods Sold", "cogs", []⟩,
      ⟨3, "Operating Expenses", "opex", []⟩]
    accounts := [⟨1, 1, "A", "Income", none, some 1⟩, ⟨2, 1, "B", "Cost of Goods Sold", none, some 2⟩,
      ⟨3, 1, "C", "Expense", none, some 3⟩]
    raw_transactions := [⟨1, 1, ⟨24300, 5⟩, 100, some 1⟩, ⟨2, 1, ⟨24300, 6⟩, -30, some 2⟩,
      ⟨3, 1, ⟨24300, 7⟩, -20, some 3⟩]
    monthly_pl := []
    monthly_cash_flow := []
    projections_12m := [] }

/-- Database of the cash-flow example: a single transaction of amount
500 on an account of type "Bank". -/
def db6 : DB :=
  { companies := [1]
    categories := []
    accounts := [⟨1, 1, "Checking", "Bank", none, none⟩]
    raw_transactions := [⟨1, 1, ⟨24300, 5⟩, 500, some 1⟩]
    monthly_pl := []
    monthly_cash_flow := []
    projections_12m := [] }

/-- `CURRENT_DATE` of the projection example: 2025-01-11. -/
def today7 : Date := ⟨24300, 11⟩

/-- Database of the projection example: two trailing P&L months
averaging to revenue 1000 and costs 600. -/
def db7 : DB :=
  { companies := [1]
    categories := []
    accounts := []
    raw_transactions := []
    monthly_pl := [⟨1, 1, ⟨24298, 1⟩, ⟨24298, 30⟩, ⟨some 900, some 400, some 200⟩, 1, 0, "r"⟩,
      ⟨2, 1, ⟨24299, 1⟩, ⟨24299, 31⟩, ⟨some 1100, some 500, some 100⟩, 1, 0, "r"⟩]
    monthly_cash_flow := []
    projections_12m := [] }

/-- `CURRENT_DATE` of the base-window divergence: 2025-10-11. -/
def today1 : Date := ⟨24309, 11⟩

/-- Database of the base-window divergence: a single P&L row for the
current (incomplete) month, period_start 2025-10-01. -/
def db1c : DB :=
  { companies := [1]
    categories := []
    accounts := []
    raw_transactions := []
    monthly_pl := [⟨1, 1, ⟨24309, 1⟩, ⟨24309, 31⟩, ⟨some 100, some 10, some 5⟩, 1, 0, "r"⟩]
    monthly_cash_flow := []
    projections_12m := [] }

/-- A company with no P&L history at all. -/
def dbE : DB :=
  { companies := [1]
    categories := []
    accounts := []
    raw_transactions := []
    monthly_pl := []
    monthly_cash_flow := []
    projections_12m := [] }

/-! ### General list lemmas -/

lemma countP_map_pres {α : Type} (g : α → α) (p : α → Bool) (l : List α)
    (h : ∀ r, p (g r) = p r) : (l.map g).countP p = l.countP p := by
  induction l with
  | nil => rfl
  | cons a l ih => simp [List.countP_cons, ih, h]

lemma filter_map_pres {α : Type} (g : α → α) (p : α → Bool) (l : List α)
    (h1 : ∀ r, p (g r) = p r) (h2 : ∀ r, p r = true → g r = r) :
    (l.map g).filter p = l.filter p := by
  induction l with
  | nil => rfl
  | cons a l ih =>
    simp only [List.map_cons, List.filter_cons, h1, ih]
    by_cases hp : p a = true
    · simp [hp, h2 a hp]
    · simp [hp]

lemma eq_of_countP_le_one {α : Type} (p : α → Bool) (l : List α)
    (h : l.countP p ≤ 1) {a b : α} (ha : a ∈ l) (hpa : p a = true)
    (hb : b ∈ l) (hpb : p b = true) : a = b := by
  induction l with
  | nil => cases ha
  | cons x l ih =>
    rw [List.countP_cons] at h
    by_cases hx : p x = true
    · have hl : l.countP p = 0 := by rw [if_pos hx] at h; omega
      have hnone : ∀ y ∈ l, ¬ p y = true := by
        intro y hy
        exact (List.countP_eq_zero.mp hl) y hy
      rcases List.mem_cons.mp ha with rfl | ha'
      · rcases List.mem_cons.mp hb with rfl | hb'
        · rfl
        · exact absurd hpb (hnone b hb')
      · exact absurd hpa (hnone a ha')
    · rcases List.mem_cons.mp ha with rfl | ha'
      · exact absurd hpa hx
      · rcases List.mem_cons.mp hb with rfl | hb'
        · exact absurd hpb hx
        · have hl : l.countP p ≤ 1 := by rw [if_neg hx] at h; omega
          exact ih hl ha' hb'

lemma length_flatMap_ite {α β : Type} (f : α → List β) (p : α → Bool) (l : List α)
    (h : ∀ a, (f a).length = if p a then 1 else 0) :
    (l.flatMap f).length = (l.filter p).length := by
  induction l with
  | nil => rfl
  | cons a l ih =>
    simp only [List.flatMap_cons, List.length_append, ih, List.filter_cons, h a]
    by_cases hp : p a = true
    · simp [hp]
      omega
    · simp [hp]

/-! ### Resolver lemmas -/

lemma exactLoop_of_find?_none {nl : String} {cs : List Category}
    (h : cs.find? (exactPred nl) = none) : exactLoop nl cs = (none, 0) := by
  induction cs with
  | nil => rfl
  | cons c cs ih =>
    by_cases hc : exactPred nl c = true
    · rw [List.find?_cons_of_pos _ hc] at h; cases h
    · rw [List.find?_cons_of_neg _ (by simp [hc])] at h
      simp [exactLoop, hc, ih h]

lemma exactLoop_of_find?_some {nl : String} {cs : List Category} {c : Category}
    (h : cs.find? (exactPred nl) = some c) : exactLoop nl cs = (some c.id, 100) := by
  induction cs with
  | nil => cases h
  | cons c' cs ih =>
    by_cases hc : exactPred nl c' = true
    · rw [List.find?_cons_of_pos _ hc] at h
      cases h
      simp [exactLoop, hc]
    · rw [List.find?_cons_of_neg _ (by simp [hc])] at h
      simp [exactLoop, hc, ih h]

lemma maxFrom_nil (nl : String) (b : Int) : maxFrom nl [] b = b := rfl

lemma maxFrom_cons (nl : String) (c : Category) (cs : List Category) (b : Int) :
    maxFrom nl (c :: cs) b = maxFrom nl cs (max b (categoryScore nl c.source_examples)) := rfl

lemma le_maxFrom (nl : String) (cs : List Category) (b : Int) : b ≤ maxFrom nl cs b := by
  induction cs generalizing b with
  | nil => exact le_refl b
  | cons c cs ih =>
    rw [maxFrom_cons]
    exact le_trans (le_max_left _ _) (ih _)

lemma maxFrom_attained {nl : String} {cs : List Category} {b : Int}
    (h : b < maxFrom nl cs b) :
    ∃ c ∈ cs, categoryScore nl c.source_examples = maxFrom nl cs b := by
  induction cs generalizing b with
  | nil => exact absurd h (lt_irrefl b)
  | cons c cs ih =>
    rw [maxFrom_cons] at h ⊢
    set s := categoryScore nl c.source_examples with hs
    by_cases hlt : max b s < maxFrom nl cs (max b s)
    · obtain ⟨c', hc', hsc'⟩ := ih hlt
      exact ⟨c', List.mem_cons_of_mem _ hc', hsc'⟩
    · have heq : maxFrom nl cs (max b s) = max b s :=
        le_antisymm (not_lt.mp hlt) (le_maxFrom nl cs _)
      rw [heq] at h ⊢
      have hmax : max b s = s := by
        rcases le_or_lt s b with hsb | hbs
        · rw [max_eq_left hsb] at h; omega
        · exact max_eq_right (le_of_lt hbs)
      exact ⟨c, List.mem_cons_self _ _, hmax.symm⟩

lemma fuzzyLoop_snd (nl : String) (cs : List Category) (bid : Option Nat) (bsc : Int) :
    (fuzzyLoop nl cs (bid, bsc)).2 = maxFrom nl cs bsc := by
  induction cs generalizing bid bsc with
  | nil => rfl
  | cons c cs ih =>
    rw [maxFrom_cons]
    show (if categoryScore nl c.source_examples > bsc then _ else _ : Option Nat × Int).2 = _
    by_cases h : categoryScore nl c.source_examples > bsc
    · rw [if_pos h, ih, max_eq_right (le_of_lt h)]
    · rw [if_neg h, ih, max_eq_left (not_lt.mp h)]

lemma fuzzyLoop_fst (nl : String) (cs : List Category) (bid : Option Nat) (bsc : Int) :
    (fuzzyLoop nl cs (bid, bsc)).1 =
      if bsc < maxFrom nl cs bsc then
        (cs.find? (fun c => categoryScore nl c.source_examples == maxFrom nl cs bsc)).map
          (fun c => c.id)
      else bid := by
  induction cs generalizing bid bsc with
  | nil => simp [fuzzyLoop, maxFrom_nil]
  | cons c cs ih =>
    rw [maxFrom_cons]
    show (if categoryScore nl c.source_examples > bsc then _ else _ : Option Nat × Int).1 = _
    set s := categoryScore nl c.source_examples with hs
    by_cases h : s > bsc
    · rw [if_pos h, ih]
      have hmax : max bsc s = s := max_eq_right (le_of_lt h)
      rw [hmax]
      have hcond : bsc < maxFrom nl cs s := lt_of_lt_of_le h (le_maxFrom nl cs s)
      rw [if_pos hcond]
      by_cases h2 : s < maxFrom nl cs s
      · rw [if_pos h2]
        rw [List.find?_cons_of_neg _ (by simp [← hs]; omega)]
      · have heq : maxFrom nl cs s = s := le_antisymm (not_lt.mp h2) (le_maxFrom nl cs s)
        rw [if_neg h2, heq]
        rw [List.find?_cons_of_pos _ (by simp [← hs])]
        rfl
    · rw [if_neg h, ih]
      have hmax : max bsc s = bsc := max_eq_left (not_lt.mp h)
      rw [hmax]
      by_cases h2 : bsc < maxFrom nl cs bsc
      · rw [if_pos h2, if_pos h2]
        rw [List.find?_cons_of_neg _ (by simp [← hs]; omega)]
      · rw [if_neg h2, if_neg h2]

lemma resolver_snd (catalog : List Category) (acc : Account) :
    (fn_map_account_to_category catalog acc).2 =
      { acc with mapping_category_id := (fn_map_account_to_category catalog acc).1 } := rfl

lemma exactLoop_cases (nl : String) (cs : List Category) :
    exactLoop nl cs = (none, 0) ∨ ∃ c : Category, exactLoop nl cs = (some c.id, 100) := by
  cases hf : cs.find? (exactPred nl) with
  | none => exact Or.inl (exactLoop_of_find?_none hf)
  | some c => exact Or.inr ⟨c, exactLoop_of_find?_some hf⟩

lemma exactLoop_fst_mem {nl : String} {cs : List Category} {i : Nat}
    (h : (exactLoop nl cs).1 = some i) : i ∈ cs.map (fun c => c.id) := by
  induction cs with
  | nil => cases h
  | cons c cs ih =>
    by_cases hc : exactPred nl c = true
    · simp [exactLoop, hc] at h
      simp [h]
    · simp only [exactLoop, hc, if_false, Bool.false_eq_true] at h
      simp [ih h]

lemma fuzzyLoop_fst_mem {nl : String} {cs : List Category} {i : Nat} :
    ∀ {bid : Option Nat} {bsc : Int}, (fuzzyLoop nl cs (bid, bsc)).1 = some i →
      bid = some i ∨ i ∈ cs.map (fun c => c.id) := by
  induction cs with
  | nil => intro bid bsc h; exact Or.inl h
  | cons c cs ih =>
    intro bid bsc h
    by_cases hc : categoryScore nl c.source_examples > bsc
    · rw [show fuzzyLoop nl (c :: cs) (bid, bsc)
          = fuzzyLoop nl cs (some c.id, categoryScore nl c.source_examples) by
        simp [fuzzyLoop, hc]] at h
      rcases ih h with h' | h'
      · simp [Option.some_inj.mp h']
      · simp [h']
    · rw [show fuzzyLoop nl (c :: cs) (bid, bsc) = fuzzyLoop nl cs (bid, bsc) by
        simp [fuzzyLoop, hc]] at h
      rcases ih h with h' | h'
      · exact Or.inl h'
      · simp [h']

lemma firstOfType_mem {catalog : List Category} {ty : String} {i : Nat}
    (h : firstOfType catalog ty = some i) : i ∈ catalog.map (fun c => c.id) := by
  unfold firstOfType at h
  cases hf : catalog.find? (fun c => c.canonical_type == ty) with
  | none => rw [hf] at h; cases h
  | some c =>
    rw [hf, Option.map_some'] at h
    exact List.mem_map.mpr ⟨c, List.mem_of_find?_eq_some hf, Option.some_inj.mp h⟩

lemma resolver_some_mem {catalog : List Category} {acc : Account} {i : Nat}
    (h : (fn_map_account_to_category catalog acc).1 = some i) :
    i ∈ catalog.map (fun c => c.id) := by
  rcases exactLoop_cases (lowerStr acc.name) catalog with he | ⟨c, he⟩ <;>
    simp only [fn_map_account_to_category, he] at h <;> norm_num at h
  · by_cases h50 : (fuzzyLoop (lowerStr acc.name) catalog (none, 0)).2 < 50
    · rw [if_pos h50] at h
      exact firstOfType_mem h
    · rw [if_neg h50] at h
      rcases fuzzyLoop_fst_mem h with h' | h'
      · cases h'
      · exact h'
  · rw [← h]
    exact exactLoop_fst_mem (by rw [he])

lemma option_beq_some (a b : Nat) : ((some a : Option Nat) == some b) = (a == b) := by
  by_cases h : a = b
  · subst h; simp
  · simp [h, Ne.symm h]

lemma option_beq_none (a : Nat) : ((some a : Option Nat) == (none : Option Nat)) = false := by
  simp

lemma option_isSome_map {α β : Type} (f : α → β) (o : Option α) :
    (o.map f).isSome = o.isSome := by
  cases o <;> rfl

lemma filter_key_length (l : List Category) (hnd : (l.map (fun c => c.id)).Nodup) (i : Nat)
    (hi : i ∈ l.map (fun c => c.id)) : (l.filter (fun c => c.id == i)).length = 1 := by
  induction l with
  | nil => cases hi
  | cons c l ih =>
    rw [List.map_cons, List.nodup_cons] at hnd
    rw [List.filter_cons]
    rcases List.mem_cons.mp hi with rfl | hi'
    · rw [if_pos (by simp)]
      have hnil : l.filter (fun c' => c'.id == c.id) = [] := by
        apply List.filter_eq_nil_iff.mpr
        intro x hx
        simp only [beq_iff_eq]
        intro hxc
        exact hnd.1 (by rw [← hxc]; exact List.mem_map_of_mem _ hx)
      simp [hnil]
    · have hne : ¬ (c.id == i) = true := by
        simp only [beq_iff_eq]
        intro hci
        exact hnd.1 (by rw [hci]; exact hi')
      rw [if_neg hne]
      exact ih hnd.2 hi'

lemma fallback_mem_canonicalTypes (t : String) :
    fallbackCanonicalType t ∈ canonicalTypes := by
  unfold fallbackCanonicalType
  split_ifs <;> simp [canonicalTypes]

/-! ### Claim theorems -/

/-- C3: for every account whose name is case-insensitively equal to some
example of some category, `fn_map_account_to_category` returns the first
category in catalog order having such an exact match, stops there, and
persists that category id on the account, regardless of fuzzy candidates
elsewhere. -/
theorem resolver_exact_match_wins (catalog : List Category) (acc : Account)
    (h : ∃ c ∈ catalog, ∃ e ∈ c.source_examples, lowerStr acc.name = lowerStr e) :
    ∃ c : Category, catalog.find? (exactPred (lowerStr acc.name)) = some c ∧
      fn_map_account_to_category catalog acc =
        (some c.id, { acc with mapping_category_id := some c.id }) := by
  have hs : (catalog.find? (exactPred (lowerStr acc.name))).isSome := by
    apply List.find?_isSome.mpr
    obtain ⟨c, hc, e, he, hee⟩ := h
    refine ⟨c, hc, ?_⟩
    unfold exactPred
    rw [List.any_eq_true]
    exact ⟨e, he, by simp [hee]⟩
  obtain ⟨c, hc⟩ := Option.isSome_iff_exists.mp hs
  refine ⟨c, hc, ?_⟩
  have hex := exactLoop_of_find?_some hc
  simp only [fn_map_account_to_category, hex]
  norm_num

/-- Witness for C3: the account named "SALES" resolves to the revenue
category of `catalog2`, whose example "Sales" matches exactly. -/
theorem resolver_exact_match_wins_witness :
    ∃ c : Category, catalog2.find? (exactPred (lowerStr acc3.name)) = some c ∧
      fn_map_account_to_category catalog2 acc3 =
        (some c.id, { acc3 with mapping_category_id := some c.id }) :=
  resolver_exact_match_wins catalog2 acc3 (by decide)

/-- C2 counterexample: the account "S_les" (of type Expense) has no
exact match in `catalog2` and is not a substring match for any example
in either direction, so under the claim's substring reading the best
fuzzy score is 0 and the type fallback must assign the opex category 2;
the code's `LIKE`-based matcher instead scores the revenue category 1
with 70 (the `_` acts as a wildcard in `'sales' LIKE '%s_les%'`) and
returns category 1. -/
theorem resolver_substr_claim_refuted :
    (∀ c ∈ catalog2, exactPred (lowerStr acc2.name) c = false) ∧
    specResolveSubstr catalog2 acc2 = some 2 ∧
    (fn_map_account_to_category catalog2 acc2).1 = some 1 := by
  refine ⟨by decide, by decide, by decide⟩

/-- C2 (amended): for every account with no exact example match, the
resolver behaves as the declarative best-score-then-fallback rule with
the two containment tests read as SQL `LIKE '%' || x || '%'` matches
(wildcard semantics) rather than plain substring tests: each category
scores the maximum over its examples of 80 / 70 / 0, the best-scoring
category wins with ties to the first in catalog order, and a best score
below 50 falls back to the declared-type table. -/
theorem resolver_fuzzy_like_spec (catalog : List Category) (acc : Account)
    (h : ∀ c ∈ catalog, exactPred (lowerStr acc.name) c = false) :
    fn_map_account_to_category catalog acc =
      (specFuzzyResolve categoryScore catalog acc,
       { acc with mapping_category_id := specFuzzyResolve categoryScore catalog acc }) := by
  have hf : catalog.find? (exactPred (lowerStr acc.name)) = none :=
    List.find?_eq_none.mpr (fun c hc => by simp [h c hc])
  have hex := exactLoop_of_find?_none hf
  have h1 : (fn_map_account_to_category catalog acc).1 =
      specFuzzyResolve categoryScore catalog acc := by
    simp only [fn_map_account_to_category, specFuzzyResolve, hex]
    norm_num
    rw [List.foldl_map]
    have hM : List.foldl
        (fun x c => max x (categoryScore (lowerStr acc.name) c.source_examples)) 0 catalog
        = maxFrom (lowerStr acc.name) catalog 0 := rfl
    rw [hM]
    show (if (fuzzyLoop (lowerStr acc.name) catalog (none, 0)).2 < 50 then _ else _) = _
    rw [fuzzyLoop_snd, fuzzyLoop_fst]
    by_cases h50 : maxFrom (lowerStr acc.name) catalog 0 < 50
    · rw [if_pos h50, if_pos h50]
    · rw [if_neg h50, if_neg h50, if_pos (by omega : (0:Int) < maxFrom (lowerStr acc.name) catalog 0)]
  refine Prod.ext h1 ?_
  rw [resolver_snd, h1]

/-- Witness for C2 (amended): on `catalog2` and the wildcard-named
account "S_les" the resolver output agrees with the `LIKE`-based
declarative rule. -/
theorem resolver_fuzzy_like_spec_witness :
    (∀ c ∈ catalog2, exactPred (lowerStr acc2.name) c = false) ∧
    fn_map_account_to_category catalog2 acc2 =
      (specFuzzyResolve categoryScore catalog2 acc2,
       { acc2 with mapping_category_id := specFuzzyResolve categoryScore catalog2 acc2 }) :=
  ⟨by decide, resolver_fuzzy_like_spec catalog2 acc2 (by decide)⟩

/-- C9: if the catalog has at least one category of every canonical
type, the resolver returns a non-null category id for every account;
and on an empty catalog it does not fail but persists `NULL` on the
account and returns `NULL`. -/
theorem resolver_totality_and_null (catalog : List Category) (acc : Account)
    (hfull : ∀ t ∈ canonicalTypes, ∃ c ∈ catalog, c.canonical_type = t) :
    ((fn_map_account_to_category catalog acc).1).isSome = true ∧
    (∀ a : Account,
      fn_map_account_to_category [] a = (none, { a with mapping_category_id := none })) := by
  constructor
  · rcases exactLoop_cases (lowerStr acc.name) catalog with he | ⟨c, he⟩ <;>
      simp only [fn_map_account_to_category, he] <;> norm_num
    by_cases h50 : (fuzzyLoop (lowerStr acc.name) catalog (none, 0)).2 < 50
    · rw [if_pos h50]
      obtain ⟨c, hc, ht⟩ := hfull _ (fallback_mem_canonicalTypes acc.type)
      unfold firstOfType
      rw [option_isSome_map]
      apply List.find?_isSome.mpr
      exact ⟨c, hc, by simp [ht]⟩
    · rw [if_neg h50]
      rw [fuzzyLoop_snd] at h50
      have h0 : (0:Int) < maxFrom (lowerStr acc.name) catalog 0 := by omega
      rw [fuzzyLoop_fst, if_pos h0]
      rw [option_isSome_map]
      obtain ⟨c, hc, hsc⟩ := maxFrom_attained h0
      apply List.find?_isSome.mpr
      exact ⟨c, hc, by simp [hsc]⟩
  · intro a
    simp [fn_map_account_to_category, exactLoop, fuzzyLoop, firstOfType]

/-- Witness for C9: `catalog6` covers every canonical type, so the
resolver is total on it; evaluated on the unmatched account `acc6`. -/
theorem resolver_totality_and_null_witness :
    (∀ t ∈ canonicalTypes, ∃ c ∈ catalog6, c.canonical_type = t) ∧
    ((fn_map_account_to_category catalog6 acc6).1).isSome = true :=
  ⟨by decide, (resolver_totality_and_null catalog6 acc6 (by decide)).1⟩

/-- C10: `fn_map_company_accounts` emits exactly one report row per
company account whose resolution is non-null (which always references a
catalog category), silently omits accounts resolving to `NULL`, and
still updates the mapping of every company account; on an empty catalog
a one-account company yields an empty report while the account is
updated. -/
theorem mapping_report_omits_null (catalog : List Category) (accounts : List Account)
    (cid : Nat) (hnd : (catalog.map (fun c => c.id)).Nodup) :
    ((fn_map_company_accounts catalog accounts cid).1).length =
      ((accounts.filter (fun a => a.company_id == cid)).filter
        (fun a => ((fn_map_account_to_category catalog a).1).isSome)).length ∧
    (∀ r ∈ (fn_map_company_accounts catalog accounts cid).1,
      ∃ c ∈ catalog, r.category_id = some c.id ∧ r.category_name = c.name) ∧
    (fn_map_company_accounts catalog accounts cid).2 = accounts.map (fun a =>
      if a.company_id == cid then
        { a with mapping_category_id := (fn_map_account_to_category catalog a).1 }
      else a) ∧
    ((fn_map_company_accounts [] [acc10] 1).1).length = 0 ∧
    (fn_map_company_accounts [] [acc10] 1).2 =
      [{ acc10 with mapping_category_id := none }] := by
  refine ⟨?_, ?_, ?_, by decide, by decide⟩
  · show ((accounts.filter (fun a => a.company_id == cid)).flatMap _).length = _
    apply length_flatMap_ite
    intro a
    rw [List.length_map]
    cases hres : (fn_map_account_to_category catalog a).1 with
    | none =>
      have hnil : catalog.filter (fun c => some c.id == (none : Option Nat)) = [] := by
        apply List.filter_eq_nil_iff.mpr
        intro c _
        simp
      rw [hnil]
      rfl
    | some i =>
      have hmem := resolver_some_mem hres
      have hcongr : catalog.filter (fun c => some c.id == some i)
          = catalog.filter (fun c => c.id == i) := by
        apply List.filter_congr
        intro c _
        rw [option_beq_some]
      rw [hcongr, filter_key_length catalog hnd i hmem]
      rfl
  · intro r hr
    rw [show (fn_map_company_accounts catalog accounts cid).1
        = (accounts.filter (fun a => a.company_id == cid)).flatMap _ from rfl] at hr
    rw [List.mem_flatMap] at hr
    obtain ⟨a, _, hra⟩ := hr
    rw [List.mem_map] at hra
    obtain ⟨c, hcf, hrc⟩ := hra
    have hcmem := List.mem_of_mem_filter hcf
    have hpred := List.of_mem_filter hcf
    refine ⟨c, hcmem, ?_, ?_⟩
    · rw [← hrc]
      show (fn_map_account_to_category catalog a).1 = some c.id
      have := (beq_iff_eq).mp hpred
      exact this.symm
    · rw [← hrc]
  · show accounts.map _ = _
    apply List.map_congr_left
    intro a _
    by_cases hac : a.company_id == cid
    · rw [if_pos hac, if_pos hac, resolver_snd]
    · rw [if_neg hac, if_neg hac]

/-- Witness for C10: instantiated on `catalog2` (distinct ids) and a
two-account company. -/
theorem mapping_report_omits_null_witness :
    (catalog2.map (fun c => c.id)).Nodup ∧
    ((fn_map_company_accounts catalog2 [acc2, acc3] 1).1).length =
      (([acc2, acc3].filter (fun a => a.company_id == 1)).filter
        (fun a => ((fn_map_account_to_category catalog2 a).1).isSome)).length :=
  ⟨by decide, (mapping_report_omits_null catalog2 [acc2, acc3] 1 (by decide)).1⟩

/-! ### Upsert lemmas for the aggregation tables -/

lemma upsertAgg_of_not_found {T : Type} {rows : List (AggRow T)} {cid : Nat} {ps : Date}
    (pe : Date) (totals : T) (now : Nat) (rid : String) (newId : Nat)
    (h0 : rows.countP (aggKey cid ps) = 0) :
    upsertAgg rows cid ps pe totals now rid newId =
      (rows ++ [⟨newId, cid, ps, pe, totals, 1, now, rid⟩], newId) := by
  unfold upsertAgg
  have hf : rows.find? (aggKey cid ps) = none :=
    List.find?_eq_none.mpr (fun a ha => by simp [List.countP_eq_zero.mp h0 a ha])
  rw [hf]

lemma upsertAgg_countP {T : Type} (rows : List (AggRow T)) (cid : Nat) (ps pe : Date)
    (totals : T) (now : Nat) (rid : String) (newId : Nat)
    (h : rows.countP (aggKey cid ps) ≤ 1) :
    ((upsertAgg rows cid ps pe totals now rid newId).1).countP (aggKey cid ps) = 1 := by
  cases hf : rows.find? (aggKey cid ps) with
  | none =>
    have h0 : rows.countP (aggKey cid ps) = 0 :=
      List.countP_eq_zero.mpr (fun a ha => by simp [List.find?_eq_none.mp hf a ha])
    rw [upsertAgg_of_not_found pe totals now rid newId h0]
    simp only [List.countP_append, h0]
    show 0 + List.countP _ [_] = 1
    rw [List.countP_cons]
    simp [aggKey]
  | some r0 =>
    unfold upsertAgg
    rw [hf]
    show (rows.map _).countP _ = 1
    rw [countP_map_pres _ (aggKey cid ps) rows (by
      intro r
      by_cases hr : aggKey cid ps r = true
      · simp only [hr, if_true]
        simp only [aggKey] at hr ⊢
        exact hr
      · simp [hr])]
    have h1 : 0 < rows.countP (aggKey cid ps) :=
      List.countP_pos_iff.mpr ⟨r0, List.mem_of_find?_eq_some hf, List.find?_some hf⟩
    omega

lemma upsertAgg_key_fields {T : Type} (rows : List (AggRow T)) (cid : Nat) (ps pe : Date)
    (totals : T) (now : Nat) (rid : String) (newId : Nat) :
    ∀ r ∈ (upsertAgg rows cid ps pe totals now rid newId).1, aggKey cid ps r = true →
      r.period_end = pe ∧ r.totals_by_account_type = totals ∧
      r.generated_at = now ∧ r.source_run_id = rid := by
  unfold upsertAgg
  cases hf : rows.find? (aggKey cid ps) with
  | none =>
    intro r hr hk
    rcases List.mem_append.mp hr with h | h
    · exact absurd hk (by simp [List.find?_eq_none.mp hf r h])
    · rw [List.mem_singleton] at h
      subst h
      exact ⟨rfl, rfl, rfl, rfl⟩
  | some r0 =>
    intro r hr hk
    obtain ⟨r', hr', hre⟩ := List.mem_map.mp hr
    by_cases hkr : aggKey cid ps r' = true
    · rw [if_pos hkr] at hre
      subst hre
      exact ⟨rfl, rfl, rfl, rfl⟩
    · rw [if_neg hkr] at hre
      subst hre
      exact absurd hk hkr

lemma upsertAgg_version_first {T : Type} {rows : List (AggRow T)} {cid : Nat} {ps : Date}
    (pe : Date) (totals : T) (now : Nat) (rid : String) (newId : Nat)
    (h0 : rows.countP (aggKey cid ps) = 0) :
    ∀ r ∈ (upsertAgg rows cid ps pe totals now rid newId).1, aggKey cid ps r = true →
      r.row_version = 1 := by
  rw [upsertAgg_of_not_found pe totals now rid newId h0]
  intro r hr hk
  rcases List.mem_append.mp hr with h | h
  · exact absurd hk (by simp [List.countP_eq_zero.mp h0 r h])
  · rw [List.mem_singleton] at h
    subst h
    rfl

lemma upsertAgg_conflict_eq {T : Type} {rows : List (AggRow T)} {cid : Nat} {ps : Date}
    (pe : Date) (totals : T) (now : Nat) (rid : String) (newId : Nat)
    (h : rows.countP (aggKey cid ps) ≤ 1) :
    ∀ r0 ∈ rows, aggKey cid ps r0 = true →
    ∀ r ∈ (upsertAgg rows cid ps pe totals now rid newId).1, aggKey cid ps r = true →
      r = { r0 with
            period_end := pe
            totals_by_account_type := totals
            row_version := r0.row_version + 1
            generated_at := now
            source_run_id := rid } := by
  intro r0 hr0 hk0 r hr hk
  cases hf : rows.find? (aggKey cid ps) with
  | none => exact absurd hk0 (by simp [List.find?_eq_none.mp hf r0 hr0])
  | some r1 =>
    unfold upsertAgg at hr
    rw [hf] at hr
    obtain ⟨r', hr', hre⟩ := List.mem_map.mp hr
    by_cases hkr : aggKey cid ps r' = true
    · have hr'0 : r' = r0 := eq_of_countP_le_one _ _ h hr' hkr hr0 hk0
      rw [if_pos hkr] at hre
      rw [← hre, hr'0]
    · rw [if_neg hkr] at hre
      subst hre
      exact absurd hk hkr

/-- Reduction of `fn_generate_monthly_pl` on valid parameters. -/
lemma fn_pl_ok (db : DB) (now newId cid : Nat) (ps pe : Date) (rid : String)
    (h1 : Date.blt pe ps = false) (h2 : (rid == "") = false) :
    fn_generate_monthly_pl db now newId (some cid) (some ps) (some pe) (some rid) =
      .ok ({ db with monthly_pl := (upsertAgg db.monthly_pl cid ps pe
          ⟨some (plCategorySum db cid ps pe "revenue"), some (plCategorySum db cid ps pe "cogs"),
           some (plCategorySum db cid ps pe "opex")⟩ now rid newId).1 },
        (upsertAgg db.monthly_pl cid ps pe
          ⟨some (plCategorySum db cid ps pe "revenue"), some (plCategorySum db cid ps pe "cogs"),
           some (plCategorySum db cid ps pe "opex")⟩ now rid newId).2) := by
  simp [fn_generate_monthly_pl, aggValidate, h1, h2]

/-- Reduction of `fn_generate_monthly_cash_flow` on valid parameters. -/
lemma fn_cf_ok (db : DB) (now newId cid : Nat) (ps pe : Date) (rid : String)
    (h1 : Date.blt pe ps = false) (h2 : (rid == "") = false) :
    fn_generate_monthly_cash_flow db now newId (some cid) (some ps) (some pe) (some rid) =
      .ok ({ db with monthly_cash_flow := (upsertAgg db.monthly_cash_flow cid ps pe
          ⟨cfTypeSum db cid ps pe operatingTypes, cfTypeSum db cid ps pe investingTypes,
           cfTypeSum db cid ps pe financingTypes⟩ now rid newId).1 },
        (upsertAgg db.monthly_cash_flow cid ps pe
          ⟨cfTypeSum db cid ps pe operatingTypes, cfTypeSum db cid ps pe investingTypes,
           cfTypeSum db cid ps pe financingTypes⟩ now rid newId).2) := by
  simp [fn_generate_monthly_cash_flow, aggValidate, h1, h2]

/-- C8: both aggregation functions fail (with the `RAISE EXCEPTION`
message, the spec's `InvalidArgument`) whenever the company id is
absent, either period bound is absent, `period_start > period_end`, or
the run id is absent or empty; the failure is returned instead of a new
state, so no mutation occurs. -/
theorem aggregation_validation_fails (db : DB) (now newId : Nat)
    (pc : Option Nat) (pps ppe : Option Date) (prid : Option String)
    (h : pc = none ∨ pps = none ∨ ppe = none ∨
      (∃ ps pe, pps = some ps ∧ ppe = some pe ∧ Date.blt pe ps = true) ∨
      prid = none ∨ prid = some "") :
    (∃ m, fn_generate_monthly_pl db now newId pc pps ppe prid = .error m) ∧
    (∃ m, fn_generate_monthly_cash_flow db now newId pc pps ppe prid = .error m) := by
  have hv : ∃ m, aggValidate pc pps ppe prid = some m := by
    rcases h with rfl | rfl | rfl | ⟨ps, pe, rfl, rfl, hlt⟩ | rfl | rfl
    · exact ⟨"company_id cannot be NULL", rfl⟩
    · cases pc with
      | none => exact ⟨"company_id cannot be NULL", rfl⟩
      | some c =>
        cases ppe with
        | none => exact ⟨"period_start and period_end cannot be NULL", rfl⟩
        | some pe => exact ⟨"period_start and period_end cannot be NULL", rfl⟩
    · cases pc with
      | none => exact ⟨"company_id cannot be NULL", rfl⟩
      | some c =>
        cases pps with
        | none => exact ⟨"period_start and period_end cannot be NULL", rfl⟩
        | some ps => exact ⟨"period_start and period_end cannot be NULL", rfl⟩
    · cases pc with
      | none => exact ⟨"company_id cannot be NULL", rfl⟩
      | some c =>
        exact ⟨"period_start must be before or equal to period_end",
          by simp [aggValidate, hlt]⟩
    · cases pc with
      | none => exact ⟨"company_id cannot be NULL", rfl⟩
      | some c =>
        cases pps with
        | none =>
          cases ppe with
          | none => exact ⟨"period_start and period_end cannot be NULL", rfl⟩
          | some pe => exact ⟨"period_start and period_end cannot be NULL", rfl⟩
        | some ps =>
          cases ppe with
          | none => exact ⟨"period_start and period_end cannot be NULL", rfl⟩
          | some pe =>
            by_cases hlt : Date.blt pe ps = true
            · exact ⟨"period_start must be before or equal to period_end",
                by simp [aggValidate, hlt]⟩
            · exact ⟨"source_run_id cannot be NULL or empty",
                by simp [aggValidate, hlt]⟩
    · cases pc with
      | none => exact ⟨"company_id cannot be NULL", rfl⟩
      | some c =>
        cases pps with
        | none =>
          cases ppe with
          | none => exact ⟨"period_start and period_end cannot be NULL", rfl⟩
          | some pe => exact ⟨"period_start and period_end cannot be NULL", rfl⟩
        | some ps =>
          cases ppe with
          | none => exact ⟨"period_start and period_end cannot be NULL", rfl⟩
          | some pe =>
            by_cases hlt : Date.blt pe ps = true
            · exact ⟨"period_start must be before or equal to period_end",
                by simp [aggValidate, hlt]⟩
            · exact ⟨"source_run_id cannot be NULL or empty",
                by simp [aggValidate, hlt]⟩
  obtain ⟨m, hm⟩ := hv
  constructor
  · exact ⟨m, by simp [fn_generate_monthly_pl, hm]⟩
  · exact ⟨m, by simp [fn_generate_monthly_cash_flow, hm]⟩

/-- Witness for C8: an inverted period (2025-01-31 down to 2025-01-01)
makes both aggregators fail. -/
theorem aggregation_validation_fails_witness :
    (∃ m, fn_generate_monthly_pl db5 0 50 (some 1) (some ⟨24300, 31⟩) (some ⟨24300, 1⟩)
      (some "run") = .error m) ∧
    (∃ m, fn_generate_monthly_cash_flow db5 0 50 (some 1) (some ⟨24300, 31⟩)
      (some ⟨24300, 1⟩) (some "run") = .error m) :=
  aggregation_validation_fails db5 0 50 (some 1) (some ⟨24300, 31⟩) (some ⟨24300, 1⟩)
    (some "run") (Or.inr (Or.inr (Or.inr (Or.inl ⟨⟨24300, 31⟩, ⟨24300, 1⟩, rfl, rfl, by decide⟩))))

/-- C4: both aggregators upsert exactly one row per
`(company, period_start)` key: the first write creates the row with
`row_version = 1`; a re-run overwrites `period_end`, the totals,
`generated_at`, `source_run_id` on the same row (same id) and increments
`row_version`; and two identical P&L runs over unchanged transactions
leave exactly one row for the key with identical totals and
`row_version` incremented once more — never a duplicate row. -/
theorem aggregate_upsert_versioning (db : DB) (now1 id1 now2 id2 cid : Nat)
    (ps pe : Date) (rid : String) (hrid : rid ≠ "") (hblt : Date.blt pe ps = false)
    (hpl : db.monthly_pl.countP (aggKey cid ps) ≤ 1)
    (hcf : db.monthly_cash_flow.countP (aggKey cid ps) ≤ 1) :
    ∃ (db1 db2 dbc : DB) (r1 r2 rc : Nat),
      fn_generate_monthly_pl db now1 id1 (some cid) (some ps) (some pe) (some rid)
        = .ok (db1, r1) ∧
      fn_generate_monthly_pl db1 now2 id2 (some cid) (some ps) (some pe) (some rid)
        = .ok (db2, r2) ∧
      fn_generate_monthly_cash_flow db now1 id1 (some cid) (some ps) (some pe) (some rid)
        = .ok (dbc, rc) ∧
      db1.monthly_pl.countP (aggKey cid ps) = 1 ∧
      db2.monthly_pl.countP (aggKey cid ps) = 1 ∧
      dbc.monthly_cash_flow.countP (aggKey cid ps) = 1 ∧
      db1.raw_transactions = db.raw_transactions ∧
      (db.monthly_pl.countP (aggKey cid ps) = 0 →
        ∀ r ∈ db1.monthly_pl, aggKey cid ps r = true → r.row_version = 1) ∧
      (db.monthly_cash_flow.countP (aggKey cid ps) = 0 →
        ∀ r ∈ dbc.monthly_cash_flow, aggKey cid ps r = true → r.row_version = 1) ∧
      (∀ r0 ∈ db.monthly_pl, aggKey cid ps r0 = true →
        ∀ r ∈ db1.monthly_pl, aggKey cid ps r = true →
          r = { r0 with
                period_end := pe
                totals_by_account_type := ⟨some (plCategorySum db cid ps pe "revenue"),
                  some (plCategorySum db cid ps pe "cogs"),
                  some (plCategorySum db cid ps pe "opex")⟩
                row_version := r0.row_version + 1
                generated_at := now1
                source_run_id := rid }) ∧
      (∀ r0 ∈ db.monthly_cash_flow, aggKey cid ps r0 = true →
        ∀ r ∈ dbc.monthly_cash_flow, aggKey cid ps r = true →
          r = { r0 with
                period_end := pe
                totals_by_account_type := ⟨cfTypeSum db cid ps pe operatingTypes,
                  cfTypeSum db cid ps pe investingTypes,
                  cfTypeSum db cid ps pe financingTypes⟩
                row_version := r0.row_version + 1
                generated_at := now1
                source_run_id := rid }) ∧
      (∀ r1m ∈ db1.monthly_pl, aggKey cid ps r1m = true →
        ∀ r2m ∈ db2.monthly_pl, aggKey cid ps r2m = true →
          r2m.totals_by_account_type = r1m.totals_by_account_type ∧
          r2m.row_version = r1m.row_version + 1) := by
  have hbeq : (rid == "") = false := by
    simp [hrid]
  have e1 := fn_pl_ok db now1 id1 cid ps pe rid hblt hbeq
  have ec := fn_cf_ok db now1 id1 cid ps pe rid hblt hbeq
  set t1 : PLTotals := ⟨some (plCategorySum db cid ps pe "revenue"),
    some (plCategorySum db cid ps pe "cogs"), some (plCategorySum db cid ps pe "opex")⟩ with ht1
  set tc : CFTotals := ⟨cfTypeSum db cid ps pe operatingTypes,
    cfTypeSum db cid ps pe investingTypes, cfTypeSum db cid ps pe financingTypes⟩ with htc
  set db1 : DB := { db with monthly_pl := (upsertAgg db.monthly_pl cid ps pe t1 now1 rid id1).1 }
    with hdb1
  set dbc : DB := { db with
    monthly_cash_flow := (upsertAgg db.monthly_cash_flow cid ps pe tc now1 rid id1).1 } with hdbc
  have hsums : ∀ ct, plCategorySum db1 cid ps pe ct = plCategorySum db cid ps pe ct :=
    fun ct => rfl
  have e2 := fn_pl_ok db1 now2 id2 cid ps pe rid hblt hbeq
  have hc1 : db1.monthly_pl.countP (aggKey cid ps) = 1 :=
    upsertAgg_countP db.monthly_pl cid ps pe t1 now1 rid id1 hpl
  have hc2 : ((upsertAgg db1.monthly_pl cid ps pe t1 now2 rid id2).1).countP (aggKey cid ps) = 1 :=
    upsertAgg_countP db1.monthly_pl cid ps pe t1 now2 rid id2 (by omega)
  have hcc : dbc.monthly_cash_flow.countP (aggKey cid ps) = 1 :=
    upsertAgg_countP db.monthly_cash_flow cid ps pe tc now1 rid id1 hcf
  refine ⟨db1, _, dbc, _, _, _, e1, e2, ec, hc1, hc2, hcc, rfl, ?_, ?_, ?_, ?_, ?_⟩
  · intro h0 r hr hk
    exact upsertAgg_version_first pe t1 now1 rid id1 h0 r hr hk
  · intro h0 r hr hk
    exact upsertAgg_version_first pe tc now1 rid id1 h0 r hr hk
  · intro r0 hr0 hk0 r hr hk
    exact upsertAgg_conflict_eq pe t1 now1 rid id1 hpl r0 hr0 hk0 r hr hk
  · intro r0 hr0 hk0 r hr hk
    exact upsertAgg_conflict_eq pe tc now1 rid id1 hcf r0 hr0 hk0 r hr hk
  · intro r1m hr1 hk1 r2m hr2 hk2
    have hfields2 := upsertAgg_key_fields db1.monthly_pl cid ps pe t1 now2 rid id2 r2m hr2 hk2
    have hconf := upsertAgg_conflict_eq pe t1 now2 rid id2 (by omega) r1m hr1 hk1 r2m hr2 hk2
    have hfields1 := upsertAgg_key_fields db.monthly_pl cid ps pe t1 now1 rid id1 r1m hr1 hk1
    constructor
    · rw [hfields2.2.1, hfields1.2.1]
    · rw [hconf]

/-- Witness for C4: first and second run on `db5` (empty aggregate
tables initially). -/
theorem aggregate_upsert_versioning_witness :
    ∃ (db1 db2 dbc : DB) (r1 r2 rc : Nat),
      fn_generate_monthly_pl db5 0 50 (some 1) (some ⟨24300, 1⟩) (some ⟨24300, 31⟩)
        (some "run") = .ok (db1, r1) ∧
      fn_generate_monthly_pl db1 1 51 (some 1) (some ⟨24300, 1⟩) (some ⟨24300, 31⟩)
        (some "run") = .ok (db2, r2) ∧
      fn_generate_monthly_cash_flow db5 0 50 (some 1) (some ⟨24300, 1⟩) (some ⟨24300, 31⟩)
        (some "run") = .ok (dbc, rc) ∧
      db1.monthly_pl.countP (aggKey 1 ⟨24300, 1⟩) = 1 ∧
      db2.monthly_pl.countP (aggKey 1 ⟨24300, 1⟩) = 1 ∧
      dbc.monthly_cash_flow.countP (aggKey 1 ⟨24300, 1⟩) = 1 := by
  obtain ⟨db1, db2, dbc, r1, r2, rc, h1, h2, h3, h4, h5, h6, _⟩ :=
    aggregate_upsert_versioning db5 0 50 1 51 1 ⟨24300, 1⟩ ⟨24300, 31⟩ "run"
      (by decide) (by decide) (by decide) (by decide)
  exact ⟨db1, db2, dbc, r1, r2, rc, h1, h2, h3, h4, h5, h6⟩

/-! ### Join-collapse lemmas for the aggregation queries -/

lemma none_beq_some (a : Nat) : (((none : Option Nat)) == some a) = false := by
  simp

lemma nat_beq_comm (a b : Nat) : (a == b) = (b == a) := by
  by_cases h : a = b
  · simp [h]
  · rw [beq_eq_false_iff_ne.mpr h, beq_eq_false_iff_ne.mpr (Ne.symm h)]

lemma obeq_none_some {α : Type} [BEq α] (a : α) :
    (((none : Option α)) == some a) = false := rfl

lemma obeq_some_some {α : Type} [BEq α] (a b : α) :
    ((some a : Option α) == some b) = (a == b) := rfl

lemma filter_key_eq_find? {α : Type} (l : List α) (f : α → Nat) (hnd : (l.map f).Nodup)
    (k : Nat) :
    l.filter (fun x => f x == k) =
      match l.find? (fun x => f x == k) with
      | some x => [x]
      | none => [] := by
  induction l with
  | nil => rfl
  | cons x l ih =>
    rw [List.map_cons, List.nodup_cons] at hnd
    by_cases hx : (f x == k) = true
    · have hf : List.find? (fun y => f y == k) (x :: l) = some x :=
        List.find?_cons_of_pos l hx
      rw [List.filter_cons, if_pos hx, hf]
      have hnil : l.filter (fun y => f y == k) = [] := by
        apply List.filter_eq_nil_iff.mpr
        intro y hy
        simp only [beq_iff_eq]
        intro hyk
        exact hnd.1 (by
          rw [show f x = f y from ((beq_iff_eq).mp hx).trans hyk.symm]
          exact List.mem_map_of_mem _ hy)
      rw [hnil]
    · have hf : List.find? (fun y => f y == k) (x :: l) = List.find? (fun y => f y == k) l :=
        List.find?_cons_of_neg l (by simp [hx])
      rw [List.filter_cons, if_neg hx, hf]
      exact ih hnd.2

lemma sum_map_ite_filter {α : Type} (g : α → Rat) (q : α → Bool) (amt : α → Rat)
    (l : List α) (h : ∀ x, g x = if q x then amt x else 0) :
    (l.map g).sum = ((l.filter q).map amt).sum := by
  induction l with
  | nil => rfl
  | cons x l ih =>
    simp only [List.map_cons, List.sum_cons, ih, List.filter_cons, h x]
    by_cases hq : q x = true
    · simp [hq]
    · simp [hq]

lemma plInner_eq (db : DB) (ct : String) (rt : RawTransaction)
    (hacc : (db.accounts.map (fun a => a.id)).Nodup)
    (hcat : (db.categories.map (fun c => c.id)).Nodup) :
    ((db.accounts.filter (fun acc => rt.account_id == some acc.id)).map (fun acc =>
        ((db.categories.filter (fun cat =>
            acc.mapping_category_id == some cat.id && cat.canonical_type == ct)).map
          (fun _ => rt.amount)).sum)).sum
      = (if txnResolvedType db rt == some ct then rt.amount else 0) := by
  cases hai : rt.account_id with
  | none =>
    rw [show db.accounts.filter (fun acc => (none : Option Nat) == some acc.id) = [] from
      List.filter_eq_nil_iff.mpr (fun a _ => by simp)]
    simp [txnResolvedType, hai]
  | some aid =>
    have hcongr : db.accounts.filter (fun acc => (some aid : Option Nat) == some acc.id)
        = db.accounts.filter (fun acc => acc.id == aid) :=
      List.filter_congr (fun a _ => by rw [option_beq_some, nat_beq_comm])
    rw [hcongr, filter_key_eq_find? db.accounts (fun a => a.id) hacc aid]
    simp only [txnResolvedType, hai]
    cases hfa : db.accounts.find? (fun a => a.id == aid) with
    | none => simp [hfa]
    | some a =>
      simp only [List.map_cons, List.map_nil, List.sum_cons, List.sum_nil, add_zero]
      cases ham : a.mapping_category_id with
      | none =>
        rw [show db.categories.filter (fun cat =>
            (none : Option Nat) == some cat.id && cat.canonical_type == ct) = [] from
          List.filter_eq_nil_iff.mpr (fun c _ => by simp)]
        simp [hfa, ham]
      | some mid =>
        have hc2 : db.categories.filter (fun cat =>
              (some mid : Option Nat) == some cat.id && cat.canonical_type == ct)
            = (db.categories.filter (fun cat => cat.id == mid)).filter
                (fun cat => cat.canonical_type == ct) := by
          rw [List.filter_filter]
          apply List.filter_congr
          intro c _
          rw [option_beq_some, nat_beq_comm, Bool.and_comm]
        rw [hc2, filter_key_eq_find? db.categories (fun c => c.id) hcat mid]
        cases hfc : db.categories.find? (fun c => c.id == mid) with
        | none => simp [hfa, ham, hfc]
        | some c0 =>
          by_cases hct : (c0.canonical_type == ct) = true
          · have h' : c0.canonical_type = ct := (beq_iff_eq).mp hct
            rw [List.filter_cons, if_pos hct]
            simp [hfa, ham, hfc, obeq_some_some, h']
          · have h' : c0.canonical_type ≠ ct := by simpa using hct
            rw [List.filter_cons, if_neg hct]
            simp [hfa, ham, hfc, obeq_some_some, h']

lemma cfInner_eq (db : DB) (types : List String) (rt : RawTransaction)
    (hacc : (db.accounts.map (fun a => a.id)).Nodup) :
    ((db.accounts.filter (fun acc =>
        rt.account_id == some acc.id && types.contains acc.type)).map
      (fun _ => rt.amount)).sum
      = (if ((txnAccountType db rt).map (fun t => types.contains t)).getD false
          then rt.amount else 0) := by
  cases hai : rt.account_id with
  | none =>
    rw [show db.accounts.filter (fun acc =>
        (none : Option Nat) == some acc.id && types.contains acc.type) = [] from
      List.filter_eq_nil_iff.mpr (fun a _ => by simp)]
    simp [txnAccountType, hai]
  | some aid =>
    have hc : db.accounts.filter (fun acc =>
          (some aid : Option Nat) == some acc.id && types.contains acc.type)
        = (db.accounts.filter (fun acc => acc.id == aid)).filter
            (fun acc => types.contains acc.type) := by
      rw [List.filter_filter]
      apply List.filter_congr
      intro a _
      rw [option_beq_some, nat_beq_comm, Bool.and_comm]
    rw [hc, filter_key_eq_find? db.accounts (fun a => a.id) hacc aid]
    simp only [txnAccountType, hai]
    cases hfa : db.accounts.find? (fun a => a.id == aid) with
    | none => simp [hfa]
    | some a =>
      by_cases ht : types.contains a.type = true
      · have htm : a.type ∈ types := by simpa using ht
        rw [List.filter_cons, if_pos ht]
        simp [hfa, htm]
      · have htm : ¬ a.type ∈ types := by simpa using ht
        rw [List.filter_cons, if_neg ht]
        simp [hfa, htm]

/-- The period-and-resolved-type filter of the declarative P&L sum. -/
def plSpecFilter (db : DB) (cid : Nat) (ps pe : Date) (ct : String)
    (rt : RawTransaction) : Bool :=
  rt.company_id == cid && Date.ble ps rt.date && Date.ble rt.date pe
    && (txnResolvedType db rt == some ct)

/-- C5: each P&L total is the sum of the signed amounts of exactly the
in-period transactions whose account resolves to a category of that
canonical type — no sign flipping, and transactions without a resolved
category are excluded from every total; in particular amounts
100 / -30 / -20 on revenue / cogs / opex accounts yield totals
revenue 100, cogs -30, opex -20. -/
theorem pl_totals_sum_by_resolved_type :
    (∀ (db : DB) (cid : Nat) (ps pe : Date) (ct : String),
      (db.accounts.map (fun a => a.id)).Nodup →
      (db.categories.map (fun c => c.id)).Nodup →
      plCategorySum db cid ps pe ct =
        ((db.raw_transactions.filter (plSpecFilter db cid ps pe ct)).map
          (fun rt => rt.amount)).sum) ∧
    (∀ (db : DB) (cid : Nat) (ps pe : Date) (ct : String) (rt : RawTransaction),
      txnResolvedType db rt = none → plSpecFilter db cid ps pe ct rt = false) ∧
    (∃ (dbr : DB) (rr : Nat),
      fn_generate_monthly_pl db5 0 50 (some 1) (some ⟨24300, 1⟩) (some ⟨24300, 31⟩)
        (some "run") = .ok (dbr, rr) ∧
      dbr.monthly_pl.map (fun r => r.totals_by_account_type) =
        [⟨some 100, some (-30), some (-20)⟩]) := by
  refine ⟨?_, ?_, ?_⟩
  · intro db cid ps pe ct hacc hcat
    unfold plCategorySum
    apply sum_map_ite_filter
    intro rt
    by_cases hper : (rt.company_id == cid && Date.ble ps rt.date && Date.ble rt.date pe) = true
    · rw [if_pos hper, plInner_eq db ct rt hacc hcat]
      by_cases hres : (txnResolvedType db rt == some ct) = true
      · rw [if_pos hres, if_pos (by simp [plSpecFilter, hper, hres])]
      · rw [if_neg hres, if_neg (by simp [plSpecFilter, hres])]
    · have hper' : (rt.company_id == cid && Date.ble ps rt.date && Date.ble rt.date pe) = false := by
        simpa using hper
      rw [if_neg hper, if_neg (by simp [plSpecFilter, hper'])]
  · intro db cid ps pe ct rt hnone
    simp [plSpecFilter, hnone]
  · exact ⟨_, _, rfl, by decide⟩

/-- Witness for C5: the sum characterisation evaluated on `db5` for the
revenue type. -/
theorem pl_totals_sum_by_resolved_type_witness :
    (db5.accounts.map (fun a => a.id)).Nodup ∧
    (db5.categories.map (fun c => c.id)).Nodup ∧
    plCategorySum db5 1 ⟨24300, 1⟩ ⟨24300, 31⟩ "revenue" =
      ((db5.raw_transactions.filter (plSpecFilter db5 1 ⟨24300, 1⟩ ⟨24300, 31⟩ "revenue")).map
        (fun rt => rt.amount)).sum :=
  ⟨by decide, by decide,
    pl_totals_sum_by_resolved_type.1 db5 1 ⟨24300, 1⟩ ⟨24300, 31⟩ "revenue"
      (by decide) (by decide)⟩

/-- The period-and-declared-type filter of the declarative cash-flow sum. -/
def cfSpecFilter (db : DB) (cid : Nat) (ps pe : Date) (types : List String)
    (rt : RawTransaction) : Bool :=
  rt.company_id == cid && Date.ble ps rt.date && Date.ble rt.date pe
    && ((txnAccountType db rt).map (fun t => types.contains t)).getD false

/-- C6: each cash-flow total sums exactly the in-period transactions
whose account's declared type lies in that bucket's type set (operating
/ investing / financing), ignoring the resolved category; the type
"Bank" belongs to none of the three sets, so a Bank-account transaction
contributes to no total — on `db6` (one Bank transaction of 500) all
three totals are 0. -/
theorem cf_totals_by_declared_type :
    (∀ (db : DB) (cid : Nat) (ps pe : Date) (types : List String),
      (db.accounts.map (fun a => a.id)).Nodup →
      cfTypeSum db cid ps pe types =
        ((db.raw_transactions.filter (cfSpecFilter db cid ps pe types)).map
          (fun rt => rt.amount)).sum) ∧
    (operatingTypes.contains "Bank" = false ∧ investingTypes.contains "Bank" = false ∧
      financingTypes.contains "Bank" = false) ∧
    (∃ (dbr : DB) (rr : Nat),
      fn_generate_monthly_cash_flow db6 0 50 (some 1) (some ⟨24300, 1⟩) (some ⟨24300, 31⟩)
        (some "run") = .ok (dbr, rr) ∧
      dbr.monthly_cash_flow.map (fun r => r.totals_by_account_type) = [⟨0, 0, 0⟩]) := by
  refine ⟨?_, by decide, ?_⟩
  · intro db cid ps pe types hacc
    unfold cfTypeSum
    apply sum_map_ite_filter
    intro rt
    by_cases hper : (rt.company_id == cid && Date.ble ps rt.date && Date.ble rt.date pe) = true
    · rw [if_pos hper, cfInner_eq db types rt hacc]
      by_cases hty : (((txnAccountType db rt).map (fun t => types.contains t)).getD false) = true
      · rw [if_pos hty, if_pos (by unfold cfSpecFilter; rw [hper, hty]; rfl)]
      · have hty' : (((txnAccountType db rt).map (fun t => types.contains t)).getD false) = false := by
          rwa [Bool.not_eq_true] at hty
        rw [if_neg hty, if_neg (by unfold cfSpecFilter; rw [hty', Bool.and_false]; simp)]
    · have hper' : (rt.company_id == cid && Date.ble ps rt.date && Date.ble rt.date pe) = false := by
        simpa using hper
      rw [if_neg hper, if_neg (by simp [cfSpecFilter, hper'])]
  · exact ⟨_, _, rfl, by decide⟩

/-- Witness for C6: the sum characterisation evaluated on `db6` for the
operating bucket. -/
theorem cf_totals_by_declared_type_witness :
    (db6.accounts.map (fun a => a.id)).Nodup ∧
    cfTypeSum db6 1 ⟨24300, 1⟩ ⟨24300, 31⟩ operatingTypes =
      ((db6.raw_transactions.filter
        (cfSpecFilter db6 1 ⟨24300, 1⟩ ⟨24300, 31⟩ operatingTypes)).map
        (fun rt => rt.amount)).sum :=
  ⟨by decide,
    cf_totals_by_declared_type.1 db6 1 ⟨24300, 1⟩ ⟨24300, 31⟩ operatingTypes (by decide)⟩

/-! ### Projection upsert and loop lemmas -/

lemma one_le_daysInMonth (ym : Int) : 1 ≤ daysInMonth ym := by
  unfold daysInMonth
  split_ifs <;> norm_num

lemma projMonth_eq (today : Date) (k : Int) :
    addMonths (dateTruncMonth today) k = ⟨today.ym + k, 1⟩ := by
  unfold addMonths dateTruncMonth
  simp [min_eq_left (one_le_daysInMonth (today.ym + k))]

lemma upsertProjection_countP_other (rows : List ProjectionRow) (cid : Nat)
    (snap m m' : Date) (rev cost : Rat) (assum : Assumptions) (newId : Nat)
    (hne : m ≠ m') :
    (upsertProjection rows cid snap m rev cost assum newId).filter (projKey cid snap m')
      = rows.filter (projKey cid snap m') := by
  unfold upsertProjection
  by_cases hany : rows.any (projKey cid snap m) = true
  · rw [if_pos hany]
    apply filter_map_pres
    · intro r
      by_cases hk : projKey cid snap m r = true
      · rw [if_pos hk]
        rfl
      · rw [if_neg hk]
    · intro r hk'
      by_cases hk : projKey cid snap m r = true
      · exfalso
        apply hne
        have h1 : r.month = m := by
          simp only [projKey, Bool.and_eq_true, beq_iff_eq] at hk
          exact hk.2
        have h2 : r.month = m' := by
          simp only [projKey, Bool.and_eq_true, beq_iff_eq] at hk'
          exact hk'.2
        rw [← h1, h2]
      · rw [if_neg hk]
  · rw [if_neg hany, List.filter_append]
    have hnil : List.filter (projKey cid snap m')
        [(⟨newId, cid, snap, m, rev, cost, assum⟩ : ProjectionRow)] = [] := by
      rw [List.filter_cons]
      rw [if_neg (by simp [projKey]; exact hne)]
      rfl
    rw [hnil, List.append_nil]

lemma upsertProjection_own (rows : List ProjectionRow) (cid : Nat) (snap m : Date)
    (rev cost : Rat) (assum : Assumptions) (newId : Nat)
    (h : rows.countP (projKey cid snap m) ≤ 1) :
    (upsertProjection rows cid snap m rev cost assum newId).countP (projKey cid snap m) = 1 ∧
    ∀ r ∈ upsertProjection rows cid snap m rev cost assum newId,
      projKey cid snap m r = true →
        r.revenue_projection = rev ∧ r.cost_projection = cost ∧ r.assumptions = assum := by
  unfold upsertProjection
  by_cases hany : rows.any (projKey cid snap m) = true
  · rw [if_pos hany]
    constructor
    · rw [countP_map_pres _ (projKey cid snap m) rows (by
        intro r
        by_cases hk : projKey cid snap m r = true
        · rw [if_pos hk]
          rfl
        · rw [if_neg hk])]
      obtain ⟨r0, hr0, hk0⟩ := List.any_eq_true.mp hany
      have := List.countP_pos_iff.mpr ⟨r0, hr0, hk0⟩
      omega
    · intro r hr hk
      obtain ⟨r', hr', hre⟩ := List.mem_map.mp hr
      by_cases hk' : projKey cid snap m r' = true
      · rw [if_pos hk'] at hre
        subst hre
        exact ⟨rfl, rfl, rfl⟩
      · rw [if_neg hk'] at hre
        subst hre
        exact absurd hk hk'
  · rw [if_neg hany]
    have h0 : rows.countP (projKey cid snap m) = 0 := by
      by_contra hne
      have : 0 < rows.countP (projKey cid snap m) := Nat.pos_of_ne_zero hne
      obtain ⟨r0, hr0, hk0⟩ := List.countP_pos_iff.mp this
      exact absurd (List.any_eq_true.mpr ⟨r0, hr0, hk0⟩) (by simp [hany])
    constructor
    · rw [List.countP_append, h0, List.countP_cons]
      simp [projKey]
    · intro r hr hk
      rcases List.mem_append.mp hr with hmem | hmem
      · exact absurd hk (by simp [List.countP_eq_zero.mp h0 r hmem])
      · rw [List.mem_singleton] at hmem
        subst hmem
        exact ⟨rfl, rfl, rfl⟩

lemma projMonth_inj (today : Date) {a b : Nat} (h : projMonth today a = projMonth today b) :
    a = b := by
  unfold projMonth at h
  rw [projMonth_eq, projMonth_eq] at h
  have hym : today.ym + (a : Int) = today.ym + (b : Int) := congrArg Date.ym h
  omega

lemma projLoop_untouched (cid : Nat) (today : Date) (aR aC : Rat) (hm now idBase : Nat)
    (m' : Date) :
    ∀ (ms : List Nat) (projs : List ProjectionRow),
      (∀ mo ∈ ms, projMonth today mo ≠ m') →
      (projLoop cid today aR aC hm now idBase ms projs).filter (projKey cid today m')
        = projs.filter (projKey cid today m') := by
  intro ms
  induction ms with
  | nil =>
    intro projs _
    rfl
  | cons mo ms ih =>
    intro projs hne
    show (projLoop cid today aR aC hm now idBase ms _).filter _ = _
    rw [ih _ (fun x hx => hne x (List.mem_cons_of_mem _ hx))]
    exact upsertProjection_countP_other projs cid today (projMonth today mo) m' _ _ _ _
      (hne mo (List.mem_cons_self _ _))

lemma projLoop_own (cid : Nat) (today : Date) (aR aC : Rat) (hm now idBase : Nat) :
    ∀ (ms : List Nat) (projs : List ProjectionRow), ms.Nodup → ∀ mo ∈ ms,
      projs.countP (projKey cid today (projMonth today mo)) ≤ 1 →
      (projLoop cid today aR aC hm now idBase ms projs).countP
          (projKey cid today (projMonth today mo)) = 1 ∧
      ∀ r ∈ projLoop cid today aR aC hm now idBase ms projs,
        projKey cid today (projMonth today mo) r = true →
          r.revenue_projection = round2 (aR * (1.02 : Rat) ^ mo) ∧
          r.cost_projection = round2 (aC * (1.02 : Rat) ^ mo) := by
  intro ms
  induction ms with
  | nil =>
    intro projs _ mo hmo
    cases hmo
  | cons mo0 ms ih =>
    intro projs hnd mo hmo hcnt
    rw [List.nodup_cons] at hnd
    rcases List.mem_cons.mp hmo with rfl | hmo'
    · have hown := upsertProjection_own projs cid today (projMonth today mo)
        (round2 (aR * (1.02 : Rat) ^ mo)) (round2 (aC * (1.02 : Rat) ^ mo))
        (projAssumptions aR aC hm mo now) (idBase + mo) hcnt
      have hunt := projLoop_untouched cid today aR aC hm now idBase (projMonth today mo) ms
        (upsertProjection projs cid today (projMonth today mo)
          (round2 (aR * (1.02 : Rat) ^ mo)) (round2 (aC * (1.02 : Rat) ^ mo))
          (projAssumptions aR aC hm mo now) (idBase + mo))
        (fun x hx heq => hnd.1 (projMonth_inj today heq ▸ hx))
      have hcnt' : (projLoop cid today aR aC hm now idBase ms
          (upsertProjection projs cid today (projMonth today mo)
            (round2 (aR * (1.02 : Rat) ^ mo)) (round2 (aC * (1.02 : Rat) ^ mo))
            (projAssumptions aR aC hm mo now) (idBase + mo))).countP
          (projKey cid today (projMonth today mo)) = 1 := by
        rw [List.countP_eq_length_filter, hunt, ← List.countP_eq_length_filter]
        exact hown.1
      have hkey : ∀ r ∈ projLoop cid today aR aC hm now idBase ms
          (upsertProjection projs cid today (projMonth today mo)
            (round2 (aR * (1.02 : Rat) ^ mo)) (round2 (aC * (1.02 : Rat) ^ mo))
            (projAssumptions aR aC hm mo now) (idBase + mo)),
          projKey cid today (projMonth today mo) r = true →
            r.revenue_projection = round2 (aR * (1.02 : Rat) ^ mo) ∧
            r.cost_projection = round2 (aC * (1.02 : Rat) ^ mo) := by
        intro r hr hk
        have hrf : r ∈ (projLoop cid today aR aC hm now idBase ms
            (upsertProjection projs cid today (projMonth today mo)
              (round2 (aR * (1.02 : Rat) ^ mo)) (round2 (aC * (1.02 : Rat) ^ mo))
              (projAssumptions aR aC hm mo now)
              (idBase + mo))).filter (projKey cid today (projMonth today mo)) :=
          List.mem_filter.mpr ⟨hr, hk⟩
        rw [hunt] at hrf
        have hmf := List.mem_filter.mp hrf
        exact ⟨(hown.2 r hmf.1 hmf.2).1, (hown.2 r hmf.1 hmf.2).2.1⟩
      exact ⟨hcnt', fun r hr hk => hkey r hr hk⟩
    · have hne0 : mo0 ≠ mo := fun h => hnd.1 (h ▸ hmo')
      have hnem : projMonth today mo0 ≠ projMonth today mo :=
        fun h => hne0 (projMonth_inj today h)
      have hcnt1 : (upsertProjection projs cid today (projMonth today mo0)
          (round2 (aR * (1.02 : Rat) ^ mo0)) (round2 (aC * (1.02 : Rat) ^ mo0))
          (projAssumptions aR aC hm mo0 now) (idBase + mo0)).countP
          (projKey cid today (projMonth today mo)) ≤ 1 := by
        rw [List.countP_eq_length_filter,
          upsertProjection_countP_other projs cid today (projMonth today mo0)
            (projMonth today mo) _ _ _ _ hnem,
          ← List.countP_eq_length_filter]
        exact hcnt
      exact ih _ hnd.2 mo hmo' hcnt1

/-- For an existing company, `fn_generate_projection` reaches the
base-average statement and aborts with its SQLSTATE 42803 error. -/
lemma fn_proj_err (db : DB) (today : Date) (now idBase cid : Nat)
    (hc : db.companies.contains cid = true) :
    fn_generate_projection db today now idBase (some cid) = .error groupBy42803 := by
  have hmem : cid ∈ db.companies := by simpa using hc
  simp [fn_generate_projection, hmem, projBaseQuery]

/-- C7 (code bug): for every existing company the base-average statement
of `fn_generate_projection` raises SQLSTATE 42803 — its implicitly
grouped `SELECT` has an `ORDER BY` on the ungrouped column
`period_start` — before the `historical_months` check, so the function
always errors: it never returns 0 on an empty history and never writes
projection rows nor returns 12. -/
theorem projection_engine_raises (db : DB) (today : Date) (now idBase cid : Nat)
    (hc : db.companies.contains cid = true) :
    fn_generate_projection db today now idBase (some cid) = .error groupBy42803 ∧
    ∀ (db' : DB) (n : Int),
      fn_generate_projection db today now idBase (some cid) ≠ .ok (db', n) := by
  refine ⟨fn_proj_err db today now idBase cid hc, ?_⟩
  intro db' n h
  rw [fn_proj_err db today now idBase cid hc] at h
  exact Except.noConfusion h

/-- Witness for C7: both a company with no `monthly_pl` history (`dbE`)
and one with two trailing months (`db7`) make `fn_generate_projection`
raise the 42803 error instead of returning 0 resp. writing 12 rows. -/
theorem projection_engine_raises_witness :
    (dbE.companies.contains 1 = true ∧
      fn_generate_projection dbE today7 0 100 (some 1) = .error groupBy42803) ∧
    (db7.companies.contains 1 = true ∧
      fn_generate_projection db7 today7 0 100 (some 1) = .error groupBy42803) :=
  ⟨⟨by decide, (projection_engine_raises dbE today7 0 100 1 (by decide)).1⟩,
   ⟨by decide, (projection_engine_raises db7 today7 0 100 1 (by decide)).1⟩⟩

/-- C1 (code bug): on 2025-10-11 with a single `monthly_pl` row for
company 1, the claimed base-average selection (`specSixMonthBase`: at
most the 6 most recent rows with `period_start` strictly before the
current month, ordered descending, capped at 6) uses 0 rows, but
`fn_generate_projection` computes no base averages at all: its
base-average statement raises SQLSTATE 42803 (`ORDER BY period_start`
on the implicitly grouped aggregate `SELECT`), so the call errors and
never returns a count. -/
theorem projection_window_divergence :
    db1c.companies.contains 1 = true ∧
    (specSixMonthBase db1c.monthly_pl 1 today1).2.2 = 0 ∧
    fn_generate_projection db1c today1 0 100 (some 1) = .error groupBy42803 ∧
    ∀ (db' : DB) (n : Int),
      fn_generate_projection db1c today1 0 100 (some 1) ≠ .ok (db', n) := by
  refine ⟨by decide, by decide, fn_proj_err db1c today1 0 100 1 (by decide), ?_⟩
  intro db' n h
  rw [fn_proj_err db1c today1 0 100 1 (by decide)] at h
  exact Except.noConfusion h

end QB
